import Mathlib

/-!
Verification development for the dutch-med-hips substitution engine
(src/dutch_med_hips/core.py, surrogates.py, constants.py).

Shallow embedding conventions:
- Python's two pseudo-random sources (the stdlib module-level generator used via
  random.random / random.randint / random.gauss, and the Faker instance used by
  the surrogate generators) are modelled as two explicit streams of naturals
  with cursors, threaded through every call.  random.seed(seed) overwrites the
  stdlib stream and resets its cursor; the Faker stream is untouched by it.
- re.sub with the combined alternation pattern is modelled as: a scan producing
  the ordered, non-overlapping list of matches, followed by a splice that copies
  the text between matches verbatim and inserts each match's replacement.
- A small regex interpreter covering the constructs used by the default
  patterns (literals, alternation, character classes, one capturing group,
  option) provides concrete match lists for the scenario claims.
-/

namespace DutchMedHips

/-- Model of the process-wide pseudo-random state: the stdlib random module's
stream and the module-level Faker instance's stream, each an infinite sequence
of naturals with a cursor. -/
structure Rng where
  stdlibStream : Nat → Nat
  stdlibPos : Nat
  fakerStream : Nat → Nat
  fakerPos : Nat

/-- Draw one raw natural from the stdlib random stream. -/
def stdlibNat (r : Rng) : Nat × Rng :=
  (r.stdlibStream r.stdlibPos, { r with stdlibPos := r.stdlibPos + 1 })

/-- Draw one raw natural from the Faker instance's stream. -/
def fakerNat (r : Rng) : Nat × Rng :=
  (r.fakerStream r.fakerPos, { r with fakerPos := r.fakerPos + 1 })

/-- Model of random.random(): one stdlib draw mapped into a rational in [0, 1). -/
def randomFloat (r : Rng) : Rat × Rng :=
  let (n, r') := stdlibNat r
  (((n % 1000000 : Nat) : Rat) / 1000000, r')

/-- Model of random.randint(a, b) (inclusive bounds): one stdlib draw folded
into the range. -/
def randomRandint (a b : Int) (r : Rng) : Int × Rng :=
  let (n, r') := stdlibNat r
  (a + (n : Int) % (b - a + 1), r')

/-- Model of random.randrange(n): one stdlib draw folded into 0..n-1. -/
def randomRandrange (n : Nat) (r : Rng) : Nat × Rng :=
  let (k, r') := stdlibNat r
  (k % n, r')

/-- Model of random.seed(seed): the stdlib stream is replaced by the stream the
seeding function associates to the seed and its cursor is reset; the Faker
stream is not affected (core.py never calls seed_surrogates). -/
def randomSeed (seedFun : Nat → Nat → Nat) (seed : Nat) (r : Rng) : Rng :=
  { r with stdlibStream := seedFun seed, stdlibPos := 0 }

/-- Model of surrogates.seed_surrogates: seeds only the Faker instance. -/
def seed_surrogates (seedFun : Nat → Nat → Nat) (seed : Nat) (r : Rng) : Rng :=
  { r with fakerStream := seedFun seed, fakerPos := 0 }

/-- Association-list lookup with string keys (Python dict read). -/
def alistGet? {α : Type} : List (String × α) → String → Option α
  | [], _ => none
  | (k, v) :: rest, t => if k = t then some v else alistGet? rest t

/-- Association-list update with string keys (Python dict assignment: replaces
in place, else appends, preserving insertion order). -/
def alistSet {α : Type} : List (String × α) → String → α → List (String × α)
  | [], t, v => [(t, v)]
  | (k, w) :: rest, t, v =>
    if k = t then (k, v) :: rest else (k, w) :: alistSet rest t v

/-- Lookup in an optional dict; a missing dict (None) reads as absent, matching
the Python truthiness guards on custom_patterns_per_type / max_per_document. -/
def dictGet? {α : Type} (d : Option (List (String × α))) (k : String) : Option α :=
  match d with
  | none => none
  | some l => alistGet? l k

/-- Per-run replacement counters: phi_type to count of replacements so far. -/
abbrev Counts := List (String × Nat)

/-- Read per_type_counts.get(phi_type, 0). -/
def countsGet (c : Counts) (t : String) : Nat :=
  (alistGet? c t).getD 0

/-- Write per_type_counts[phi_type] = v. -/
def countsSet (c : Counts) (t : String) (v : Nat) : Counts :=
  alistSet c t v

/-- A single regex match of the combined alternation, as seen by the
replacement callback: which config's named group fired (match.lastgroup is
p{idx}), the span in the input text, the content of group 1 of the combined
pattern, and match.lastindex.  Groups of the combined pattern are numbered by
opening parenthesis, so group 1 is always the first binding's named wrapper
group: some-of-the-full-match when the first binding fired, none otherwise —
never an inner capture of a later binding's own pattern. -/
structure MatchInfo where
  idx : Nat
  start : Nat
  stop : Nat
  group1 : Option String
  lastindex : Option Nat
deriving DecidableEq, Repr

/-- Mirror of core.PatternConfig: phi category, regex pattern string, generator
and optional per-document cap. -/
structure PatternConfig where
  phi_type : String
  pattern : String
  generator : MatchInfo → Rng → String × Rng
  max_per_document : Option Nat

/-- Placeholder config for an out-of-range group lookup; never reachable for
well-formed match lists (every match's idx is below the config count). -/
def dummyConfig : PatternConfig :=
  { phi_type := "", pattern := "", generator := fun _ r => ("", r),
    max_per_document := some 0 }

/-- Mirror of the mapping record dict appended by HideInPlainSight.run:
offsets start/stop are positions in the original input text. -/
structure MappingRecord where
  phi_type : String
  pattern : String
  original : String
  surrogate : String
  start : Nat
  stop : Nat
deriving DecidableEq, Repr

/-- Slice text[a:b] of a character list. -/
def slice (l : List Char) (a b : Nat) : List Char :=
  (l.drop a).take (b - a)

/-- Mirror of the _replacement closure in HideInPlainSight.run, for one match:
returns the piece of output text standing for the matched span, the updated
counters, the mapping records appended (one or none), and the random state. -/
def replStep (configs : List PatternConfig) (keep_mapping : Bool)
    (text : List Char) (m : MatchInfo) (counts : Counts) (rng : Rng) :
    List Char × Counts × List MappingRecord × Rng :=
  let cfg := configs.getD m.idx dummyConfig
  let t := cfg.phi_type
  let count := countsGet counts t
  let capped : Bool :=
    match cfg.max_per_document with
    | some cap => decide (cap ≤ count)
    | none => false
  if capped then
    -- Limit reached: leave original text unchanged.
    (slice text m.start m.stop, counts, [], rng)
  else
    let (surrogate, rng') := cfg.generator m rng
    let counts' := countsSet counts t (count + 1)
    let recs :=
      if keep_mapping then
        [{ phi_type := t, pattern := cfg.pattern,
           original := (slice text m.start m.stop).asString,
           surrogate := surrogate, start := m.start, stop := m.stop }]
      else []
    (surrogate.toList, counts', recs, rng')

/-- Result of processing the tail of the match list. -/
structure SubResult where
  out : List Char
  mapping : List MappingRecord
  counts : Counts
  rng : Rng

/-- Mirror of re.sub applied to the ordered match list: copy the text between
matches verbatim, insert each match's replacement piece, threading counters,
mapping and random state exactly as the _replacement closure does. -/
def subRun (configs : List PatternConfig) (keep_mapping : Bool)
    (text : List Char) :
    List MatchInfo → Nat → Counts → Rng → SubResult
  | [], pos, counts, rng =>
    { out := text.drop pos, mapping := [], counts := counts, rng := rng }
  | m :: ms, pos, counts, rng =>
    let step := replStep configs keep_mapping text m counts rng
    let rest := subRun configs keep_mapping text ms m.stop step.2.1 step.2.2.2
    { out := slice text pos m.start ++ step.1 ++ rest.out,
      mapping := step.2.2.1 ++ rest.mapping,
      counts := rest.counts,
      rng := rest.rng }

/-- Replacement pieces only, with identical threading of counters and random
state as subRun (projection used to state the frame property). -/
def subPieces (configs : List PatternConfig) (keep_mapping : Bool)
    (text : List Char) :
    List MatchInfo → Counts → Rng → List (List Char)
  | [], _, _ => []
  | m :: ms, counts, rng =>
    let step := replStep configs keep_mapping text m counts rng
    step.1 :: subPieces configs keep_mapping text ms step.2.1 step.2.2.2

/-- Splice a list of replacement pieces into the text along the match list. -/
def joinPieces (text : List Char) :
    Nat → List MatchInfo → List (List Char) → List Char
  | pos, [], _ => text.drop pos
  | pos, _ :: _, [] => text.drop pos
  | pos, m :: ms, r :: rs => slice text pos m.start ++ r ++ joinPieces text m.stop ms rs

/-- Well-formedness of a match list as produced by finditer on the combined
pattern: spans are ordered left to right, non-overlapping, inside the text, and
each match names one of the engine's configs. -/
def wfFrom (pos textLen nconf : Nat) : List MatchInfo → Bool
  | [] => true
  | m :: ms =>
    decide (pos ≤ m.start) && decide (m.start ≤ m.stop) &&
    decide (m.stop ≤ textLen) && decide (m.idx < nconf) &&
    wfFrom m.stop textLen nconf ms

/-- Mirror of the HideInPlainSight engine state relevant to run: the ordered
pattern configs (the combined compiled pattern is their alternation in order,
and is None exactly when the list is empty). -/
structure HideInPlainSight where
  pattern_configs : List PatternConfig

/-- Result dict of HideInPlainSight.run. -/
structure RunResult where
  text : String
  mapping : Option (List MappingRecord)
deriving DecidableEq, Repr

/-- Mirror of HideInPlainSight.run: with no configs the combined pattern is
None and the input is returned unchanged; otherwise one substitution pass over
the matches produced by the compiled combined pattern (the scan argument stands
for _combined_pattern.finditer). -/
def HideInPlainSight.run (e : HideInPlainSight)
    (scan : List Char → List MatchInfo) (text : String)
    (keep_mapping : Bool) (rng : Rng) : RunResult × Rng :=
  if e.pattern_configs.isEmpty then
    ({ text := text, mapping := if keep_mapping then some [] else none }, rng)
  else
    let r := subRun e.pattern_configs keep_mapping text.toList
      (scan text.toList) 0 [] rng
    ({ text := r.out.asString,
       mapping := if keep_mapping then some r.mapping else none }, r.rng)

/-- Mirror of the defensive cross-category duplicate check in
HideInPlainSight.__init__: fold the configs through a pattern-to-owner dict,
failing at the first pattern already owned by a different phi type. -/
def checkOwners : List PatternConfig → List (String × String) →
    Option (String × String × String)
  | [], _ => none
  | cfg :: rest, owners =>
    match alistGet? owners cfg.pattern with
    | some owner =>
      if owner ≠ cfg.phi_type then some (cfg.pattern, owner, cfg.phi_type)
      else checkOwners rest (alistSet owners cfg.pattern cfg.phi_type)
    | none => checkOwners rest (alistSet owners cfg.pattern cfg.phi_type)

/-- Regex abstract syntax covering the constructs used by the default pattern
strings: literals, concatenation, alternation, option, and one capturing
group.  Character classes are encoded as alternations of their characters. -/
inductive Regex where
  | eps
  | ch (c : Char)
  | cat (a b : Regex)
  | alt (a b : Regex)
  | opt (a : Regex)
  | grp (a : Regex)

/-- First capture wins when combining two branches of a concatenation (only a
single group occurs in the default patterns, so at most one side is some). -/
def orElseCapture (x y : Option (List Char)) : Option (List Char) :=
  match x with
  | some v => some v
  | none => y

/-- All matches of a regex against a prefix of the character list, in the
backtracking order of the Python engine (alternation left first, option greedy,
concatenation lexicographic); each result is the consumed length paired with
the group-1 capture, and the head of the list is the match Python returns. -/
def Regex.results : Regex → List Char → List (Nat × Option (List Char))
  | .eps, _ => [(0, none)]
  | .ch c, s =>
    match s with
    | [] => []
    | x :: _ => if x = c then [(1, none)] else []
  | .cat a b, s =>
    (a.results s).flatMap (fun pr =>
      (b.results (s.drop pr.1)).map (fun qr => (pr.1 + qr.1, orElseCapture pr.2 qr.2)))
  | .alt a b, s => a.results s ++ b.results s
  | .opt a, s => a.results s ++ [(0, none)]
  | .grp a, s => (a.results s).map (fun pr => (pr.1, some (s.take pr.1)))

/-- Literal string regex. -/
def rstr (s : String) : Regex :=
  s.toList.foldr (fun c r => Regex.cat (Regex.ch c) r) Regex.eps

/-- Alternation of a non-empty list of alternatives, left to right. -/
def raltList : List Regex → Regex
  | [] => Regex.eps
  | [r] => r
  | r :: rest => Regex.alt r (raltList rest)

/-- Character class as alternation of its characters. -/
def rcls (cs : List Char) : Regex :=
  raltList (cs.map Regex.ch)

/-- Number of capturing groups a regex opens. -/
def Regex.countGroups : Regex → Nat
  | .eps => 0
  | .ch _ => 0
  | .cat a b => a.countGroups + b.countGroups
  | .alt a b => a.countGroups + b.countGroups
  | .opt a => a.countGroups
  | .grp a => 1 + a.countGroups

/-- Try the combined alternation at one position: the configs' regexes are
tried in registration order (the alternation tries alternatives left to right
at a given start position), returning the firing config index, the consumed
length, its own inner capture when one participated, and the number of
capturing groups opened before the firing config's wrapper group (each
binding contributes its named wrapper plus its pattern's own groups). -/
def tryConfigsAt : List (Nat × Regex) → List Char → Nat →
    Option (Nat × Nat × Option (List Char) × Nat)
  | [], _, _ => none
  | (i, r) :: rest, s, groupsBefore =>
    match (r.results s).head? with
    | some pr => some (i, pr.1, pr.2, groupsBefore)
    | none => tryConfigsAt rest s (groupsBefore + 1 + r.countGroups)

/-- Scan of _combined_pattern.finditer: leftmost match wins, the scan resumes
after each match (advancing one position past an empty match).  The match's
group 1 is the first binding's wrapper group, so it holds the full matched
text exactly when zero groups precede the firing wrapper; lastindex is the
highest participating group number (the modelled patterns carry at most one
inner group, numbered right after their wrapper). -/
def findIterFrom (pats : List (Nat × Regex)) (text : List Char) :
    Nat → Nat → List MatchInfo
  | _, 0 => []
  | pos, fuel + 1 =>
    if pos > text.length then []
    else
      match tryConfigsAt pats (text.drop pos) 0 with
      | some (i, n, cap, groupsBefore) =>
        { idx := i, start := pos, stop := pos + n,
          group1 := if groupsBefore = 0 then some ((text.drop pos).take n).asString
                    else none,
          lastindex := some (groupsBefore + 1 + (if cap.isSome then 1 else 0)) } ::
          findIterFrom pats text (if n = 0 then pos + 1 else pos + n) fuel
      | none => findIterFrom pats text (pos + 1) fuel

/-- All matches of the combined pattern over the whole text. -/
def findIter (pats : List (Nat × Regex)) (text : List Char) : List MatchInfo :=
  findIterFrom pats text 0 (text.length + 2)

/-- Regex AST for the default patient-id pattern <PATIENT(?:_ID|ID|NUMMER)>. -/
def patientIdRegex : Regex :=
  Regex.cat (rstr "<PATIENT")
    (Regex.cat (raltList [rstr "_ID", rstr "ID", rstr "NUMMER"]) (Regex.ch '>'))

/-- Regex AST for the default document-sub-id pattern
<RAPPORT[_-]ID\.(T|R|C|DPA|RPA)[_-]NUMMER> (the dot is escaped in the source,
hence a literal). -/
def rapportSubIdRegex : Regex :=
  Regex.cat (rstr "<RAPPORT")
    (Regex.cat (rcls ['_', '-'])
      (Regex.cat (rstr "ID.")
        (Regex.cat (Regex.grp (raltList [rstr "T", rstr "R", rstr "C", rstr "DPA", rstr "RPA"]))
          (Regex.cat (rcls ['_', '-']) (rstr "NUMMER>")))))

namespace PHIType

def PERSON_NAME : String := "person_name"

def PERSON_NAME_ABBREV : String := "person_name_abbrev"

def DATE : String := "date"

def TIME : String := "time"

def PHONE_NUMBER : String := "phone_number"

def ADDRESS : String := "address"

def PATIENT_ID : String := "patient_id"

def Z_NUMBER : String := "z_number"

def LOCATION : String := "location"

def DOCUMENT_ID : String := "document_id"

def DOCUMENT_SUB_ID : String := "document_sub_id"

def PHI_NUMBER : String := "phi_number"

def AGE : String := "age"

def HOSPITAL_NAME : String := "hospital_name"

def ACCREDITATION_NUMBER : String := "accreditation_number"

def STUDY_NAME : String := "study_name"

end PHIType

/-- Mirror of constants.DEFAULT_PATTERNS: the per-category default regex
pattern strings, in source (insertion) order. -/
def DEFAULT_PATTERNS : List (String × List String) :=
  [(PHIType.PERSON_NAME, ["<(?:PERSOON|PERSON_NAME|NAAM|NAME)>"]),
   (PHIType.DATE, ["<(?:DATE|DATUM)>"]),
   (PHIType.TIME, ["<(?:TIME|TIJD)>"]),
   (PHIType.PHONE_NUMBER, ["<(?:PHONE|PHONENUMBER|TELEFOON|TELEFOONNUMMER)>"]),
   (PHIType.ADDRESS, ["<(?:ADRES|ADDRESS)>"]),
   (PHIType.PATIENT_ID, ["<PATIENT(?:_ID|ID|NUMMER)>"]),
   (PHIType.Z_NUMBER, ["<Z[-_]?(?:NUMMER|NUMBER)>"]),
   (PHIType.LOCATION, ["<(?:LOCATIE|LOCATION|PLAATS|PLACE)>"]),
   (PHIType.DOCUMENT_ID, ["<(?:DOCUMENT|RAPPORT)[-_]?ID>"]),
   (PHIType.DOCUMENT_SUB_ID, ["<RAPPORT[_-]ID\\.(T|R|C|DPA|RPA)[_-]NUMMER>"]),
   (PHIType.PHI_NUMBER, ["<PHI[-_]?(?:NUMMER|NUMBER)>"]),
   (PHIType.AGE, ["<(?:LEEFTIJD|AGE)>"]),
   (PHIType.PERSON_NAME_ABBREV, ["<(?:PERSON_INITIALS|PERSOONAFKORTING)>"]),
   (PHIType.HOSPITAL_NAME, ["<(?:HOSPITAL_NAME|ZIEKENHUIS|HOSPITAL)>"]),
   (PHIType.ACCREDITATION_NUMBER,
     ["<(?:ACCREDITATION_NUMBER|ACCREDITATIE_NUMMER|ACCREDATIE[-_]?NUMMER)>"]),
   (PHIType.STUDY_NAME, ["<(?:STUDY[-_]?NAME|STUDIE[-_]?NAAM)>"])]

/-- Modelled from the spec: defaults.py is not among the sources; the spec
names these person-name tuning probabilities without giving values, so
stand-in values in [0, 1] are used (no claim depends on the numbers). -/
def PERSON_NAME_FIRST_ONLY_PROB : Rat := 15 / 100

/-- Modelled from the spec: stand-in value, see PERSON_NAME_FIRST_ONLY_PROB. -/
def PERSON_NAME_LAST_ONLY_PROB : Rat := 15 / 100

/-- Modelled from the spec: stand-in value, see PERSON_NAME_FIRST_ONLY_PROB. -/
def PERSON_NAME_INITIALS_PROB : Rat := 20 / 100

/-- Modelled from the spec: stand-in value for the maximum number of initials
(the spec says 1..K initials are produced). -/
def PERSON_NAME_MAX_INITIALS : Nat := 3

/-- Modelled from the spec: stand-in value, see PERSON_NAME_FIRST_ONLY_PROB. -/
def PERSON_NAME_REVERSE_ORDER_PROB : Rat := 10 / 100

/-- Modelled from the spec: stand-in value, see PERSON_NAME_FIRST_ONLY_PROB. -/
def PERSON_NAME_LOWERCASE_PROB : Rat := 10 / 100

/-- Modelled from the spec: stand-in value, see PERSON_NAME_FIRST_ONLY_PROB. -/
def PERSON_NAME_UPPERCASE_PROB : Rat := 5 / 100

/-- Modelled from the spec: stand-in date-format probabilities (defaults.py is
not among the sources). -/
def DATE_WITH_YEAR_PROB : Rat := 50 / 100

/-- Modelled from the spec: stand-in value, see DATE_WITH_YEAR_PROB. -/
def DATE_MONTH_AS_NAME_PROB : Rat := 50 / 100

/-- Modelled from the spec: stand-in value, see DATE_WITH_YEAR_PROB. -/
def DATE_MONTH_NAME_ABBR_PROB : Rat := 50 / 100

/-- Modelled from the spec: stand-in value, see DATE_WITH_YEAR_PROB. -/
def DATE_NUMERIC_PADDED_PROB : Rat := 50 / 100

/-- Modelled from the spec: stand-in time-format weights (defaults.py is not
among the sources). -/
def TIME_FMT_HH_MM_PROB : Rat := 40 / 100

/-- Modelled from the spec: stand-in value, see TIME_FMT_HH_MM_PROB. -/
def TIME_FMT_HH_DOT_MM_PROB : Rat := 20 / 100

/-- Modelled from the spec: stand-in value, see TIME_FMT_HH_MM_PROB. -/
def TIME_FMT_HH_U_MM_PROB : Rat := 20 / 100

/-- Modelled from the spec: stand-in value, see TIME_FMT_HH_MM_PROB. -/
def TIME_FMT_NATURAL_DUTCH_PROB : Rat := 20 / 100

/-- Modelled from the spec: stand-in value, see TIME_FMT_HH_MM_PROB. -/
def TIME_ADD_HOUR : Rat := 30 / 100

/-- Modelled from the spec: stand-in Gaussian-mixture means for the age
sampler (defaults.py is not among the sources; the age theorem is stated for
arbitrary mixture configurations). -/
def AGE_GMM_MEANS : List Rat := [40, 70]

/-- Modelled from the spec: stand-in value, see AGE_GMM_MEANS. -/
def AGE_GMM_VARS : List Rat := [100, 64]

/-- Modelled from the spec: stand-in value, see AGE_GMM_MEANS. -/
def AGE_GMM_WEIGHTS : List Rat := [6 / 10, 4 / 10]

/-- Modelled from the spec: stand-in lower end of the fixed inclusive age
bound (the spec gives the bound symbolically as [AGE_MIN, AGE_MAX]). -/
def AGE_MIN : Int := 0

/-- Modelled from the spec: stand-in value, see AGE_MIN. -/
def AGE_MAX : Int := 120

/-- Mirror of surrogates._DUTCH_MONTHS_FULL. -/
def _DUTCH_MONTHS_FULL : List String :=
  ["januari", "februari", "maart", "april", "mei", "juni", "juli",
   "augustus", "september", "oktober", "november", "december"]

/-- Mirror of surrogates._DUTCH_MONTHS_ABBR. -/
def _DUTCH_MONTHS_ABBR : List String :=
  ["jan", "feb", "mrt", "apr", "mei", "jun", "jul", "aug", "sep", "okt",
   "nov", "dec"]

/-- Mirror of surrogates._DUTCH_HOUR_WORDS. -/
def _DUTCH_HOUR_WORDS : List String :=
  ["twaalf", "één", "twee", "drie", "vier", "vijf", "zes", "zeven", "acht",
   "negen", "tien", "elf"]

/-- Model of random.randint on nonnegative bounds, as used for counts. -/
def randomRandintNat (a b : Nat) (r : Rng) : Nat × Rng :=
  let (n, r') := stdlibNat r
  (a + n % (b - a + 1), r')

/-- Mirror of surrogates._chance: one random.random() draw compared to p. -/
def _chance (p : Rat) (r : Rng) : Bool × Rng :=
  let (x, r') := randomFloat r
  (decide (x < p), r')

/-- Model of random.choice on a string list: one stdlib draw picks an index. -/
def randomChoice (l : List String) (r : Rng) : String × Rng :=
  let (k, r') := stdlibNat r
  (l.getD (k % l.length) "", r')

/-- Scan of the accumulator loop inside _choose_weighted_index: return the
first index whose cumulative weight reaches the drawn value. -/
def weightedScan (rv : Rat) : Rat → Nat → List Rat → Option Nat
  | _, _, [] => none
  | acc, i, w :: ws =>
    if rv ≤ acc + w then some i else weightedScan rv (acc + w) (i + 1) ws

/-- Mirror of surrogates._choose_weighted_index: weighted index choice with a
uniform fallback when the total weight is non-positive, and a last-index
fallback when the accumulator loop falls through. -/
def _choose_weighted_index (weights : List Rat) (r : Rng) : Nat × Rng :=
  let total := weights.sum
  if total ≤ 0 then
    -- fallback: uniform
    randomRandrange weights.length r
  else
    let (x, r') := randomFloat r
    let rv := x * total
    (match weightedScan rv 0 0 weights with
     | some i => i
     | none => weights.length - 1, r')

/-- Model of a Faker first-name draw (external corpus lookup rendered from one
Faker-stream draw). -/
def fakeFirstName (r : Rng) : String × Rng :=
  let (n, r') := fakerNat r
  ("Voornaam" ++ toString (n % 100), r')

/-- Model of a Faker last-name draw. -/
def fakeLastName (r : Rng) : String × Rng :=
  let (n, r') := fakerNat r
  ("Achternaam" ++ toString (n % 100), r')

/-- Extra initials drawn inside _first_name_to_initials: each from a fresh
Faker first name, skipped when the stripped name is empty. -/
def initialsExtra : Nat → Rng → List String × Rng
  | 0, r => ([], r)
  | k + 1, r =>
    let (nm, r1) := fakeFirstName r
    let e := nm.trim
    let (rest, r2) := initialsExtra k r1
    ((if e ≠ "" then [String.mk [(e.toList.headD 'X').toUpper] ++ "."] else []) ++ rest, r2)

/-- Mirror of surrogates._first_name_to_initials: first initial from the given
first name, extra_count additional initials from fresh Faker names, joined
without separators. -/
def _first_name_to_initials (first_name : String) (extra_count : Nat)
    (r : Rng) : String × Rng :=
  let fn := first_name.trim
  let first0 : List String :=
    if fn ≠ "" then [String.mk [(fn.toList.headD 'X').toUpper] ++ "."] else []
  let (extras, r') := initialsExtra extra_count r
  (String.join (first0 ++ extras), r')

/-- Mirror of surrogates.generate_fake_person_name: structural variant by one
uniform draw against cumulative thresholds, initials only in the full variant
behind a further Bernoulli draw, optional reversed order, and a final
capitalization pass.  Draws that the Python short-circuits skip are skipped. -/
def generate_fake_person_name (_m : MatchInfo) (r : Rng) : String × Rng :=
  let (first, r1) := fakeFirstName r
  let (last, r2) := fakeLastName r1
  let (x, r3) := randomFloat r2
  let struct : String :=
    if x < PERSON_NAME_FIRST_ONLY_PROB then "first_only"
    else if x < PERSON_NAME_FIRST_ONLY_PROB + PERSON_NAME_LAST_ONLY_PROB then "last_only"
    else "full"
  let (use_initials, r4) :=
    if struct = "full" then
      let (y, r4a) := randomFloat r3
      (decide (y < PERSON_NAME_INITIALS_PROB), r4a)
    else (false, r3)
  let (first_part, r5) :=
    if use_initials then
      let max_n := max 1 PERSON_NAME_MAX_INITIALS
      let (extra_count, r5a) := randomRandintNat 0 (max_n - 1) r4
      _first_name_to_initials first extra_count r5a
    else (first, r4)
  let parts : List String :=
    if struct = "first_only" then [first_part]
    else if struct = "last_only" then [last]
    else [first_part, last]
  let (parts2, r6) :=
    if parts.length = 2 then
      let (z, r6a) := randomFloat r5
      (if z < PERSON_NAME_REVERSE_ORDER_PROB then
         [parts.getD 1 "" ++ ",", parts.getD 0 ""]
       else parts, r6a)
    else (parts, r5)
  let name := String.intercalate " " parts2
  let (c, r7) := randomFloat r6
  let name2 :=
    if c < PERSON_NAME_LOWERCASE_PROB then name.toLower
    else if c < PERSON_NAME_LOWERCASE_PROB + PERSON_NAME_UPPERCASE_PROB then name.toUpper
    else name
  (name2, r7)

/-- Model of a Faker uppercase-letter draw. -/
def fakerUppercaseLetter (r : Rng) : Char × Rng :=
  let (n, r') := fakerNat r
  (Char.ofNat (65 + n % 26), r')

/-- Mirror of surrogates.generate_fake_person_initials: two uppercase letters
joined by periods with a trailing period. -/
def generate_fake_person_initials (_m : MatchInfo) (r : Rng) : String × Rng :=
  let (c1, r1) := fakerUppercaseLetter r
  let (c2, r2) := fakerUppercaseLetter r1
  (String.intercalate "." [String.mk [c1], String.mk [c2]] ++ ".", r2)

/-- Model of _fake.date_between("-5y", "today"): a (year, month, day) triple
rendered from three Faker-stream draws inside the recent window. -/
def fakeDateBetween (r : Rng) : (Nat × Nat × Nat) × Rng :=
  let (a, r1) := fakerNat r
  let (b, r2) := fakerNat r1
  let (c, r3) := fakerNat r2
  ((2020 + a % 6, 1 + b % 12, 1 + c % 28), r3)

/-- Zero-pad a natural to the given width (Python format {:0Nd}). -/
def padNat (w n : Nat) : String :=
  let s := toString n
  String.mk (List.replicate (w - s.length) '0') ++ s

/-- Mirror of surrogates.generate_fake_date: year inclusion, month naming,
abbreviation or padding chosen by independent Bernoulli draws, composing the
eight surface formats of the source. -/
def generate_fake_date (_m : MatchInfo) (r : Rng) : String × Rng :=
  let (ymd, r1) := fakeDateBetween r
  let year := ymd.1
  let month := ymd.2.1
  let day := ymd.2.2
  let (with_year, r2) := _chance DATE_WITH_YEAR_PROB r1
  let (month_as_name, r3) := _chance DATE_MONTH_AS_NAME_PROB r2
  if month_as_name then
    let (use_abbr, r4) := _chance DATE_MONTH_NAME_ABBR_PROB r3
    let month_str :=
      if use_abbr then _DUTCH_MONTHS_ABBR.getD (month - 1) ""
      else _DUTCH_MONTHS_FULL.getD (month - 1) ""
    if with_year then
      (toString day ++ " " ++ month_str ++ " " ++ padNat 4 year, r4)
    else
      (toString day ++ " " ++ month_str, r4)
  else
    let (padded, r4) := _chance DATE_NUMERIC_PADDED_PROB r3
    let day_str := if padded then padNat 2 day else toString day
    let month_str := if padded then padNat 2 month else toString month
    if with_year then
      (day_str ++ "-" ++ month_str ++ "-" ++ padNat 4 year, r4)
    else
      (day_str ++ "-" ++ month_str, r4)

/-- Mirror of surrogates._natural_dutch_time: base hour word, next hour word
for the half and quarter-to phrases, template chosen by random.choice. -/
def _natural_dutch_time (r : Rng) : String × Rng :=
  let (base_hour, r1) := randomRandintNat 0 11 r
  let hour_word := _DUTCH_HOUR_WORDS.getD base_hour ""
  let next_hour_word := _DUTCH_HOUR_WORDS.getD ((base_hour + 1) % 12) ""
  let (kind, r2) := randomChoice ["kwart_voor", "kwart_over", "half", "uur"] r1
  if kind = "kwart_voor" then ("kwart voor " ++ next_hour_word, r2)
  else if kind = "kwart_over" then ("kwart over " ++ hour_word, r2)
  else if kind = "half" then ("half " ++ next_hour_word, r2)
  else (hour_word ++ " uur", r2)

/-- Mirror of surrogates.generate_fake_time: uniform hour/minute, one of four
format families by weighted index, optional trailing unit suffix. -/
def generate_fake_time (_m : MatchInfo) (r : Rng) : String × Rng :=
  let (hour, r1) := randomRandintNat 0 23 r
  let (minute, r2) := randomRandintNat 0 59 r1
  let (idx, r3) := _choose_weighted_index
    [TIME_FMT_HH_MM_PROB, TIME_FMT_HH_DOT_MM_PROB, TIME_FMT_HH_U_MM_PROB,
     TIME_FMT_NATURAL_DUTCH_PROB] r2
  let (add_hour, r4) := _chance TIME_ADD_HOUR r3
  let uur := if add_hour then " uur" else ""
  if idx = 0 then (padNat 2 hour ++ ":" ++ padNat 2 minute ++ uur, r4)
  else if idx = 1 then (padNat 2 hour ++ "." ++ padNat 2 minute ++ uur, r4)
  else if idx = 2 then (toString hour ++ "u" ++ padNat 2 minute, r4)
  else _natural_dutch_time r4

/-- Round half up on rationals; stands in for Python's round (which differs
only at exact half-integer ties, irrelevant to every claim). -/
def ratRound (q : Rat) : Int :=
  Rat.floor (q + 1 / 2)

/-- Model of random.gauss(mean, sigma): an external stdlib draw mapped to a
standard-normal stand-in value in [-10, 10], scaled and shifted. -/
def randomGauss (mean sigma : Rat) (r : Rng) : Rat × Rng :=
  let (n, r') := stdlibNat r
  (mean + sigma * ((((n % 2001 : Nat) : Rat) - 1000) / 100), r')

/-- Mirror of the bounded rejection loop of generate_fake_age: up to tries
accepted draws inside the bound, then one final clamped draw. -/
def ageLoop (tries : Nat) (mean sigma : Rat) (amin amax : Int) (r : Rng) :
    Int × Rng :=
  match tries with
  | 0 =>
    -- Fallback: clamp a final sample
    let (s, r') := randomGauss mean sigma r
    let age := ratRound s
    (max amin (min amax age), r')
  | t + 1 =>
    let (s, r') := randomGauss mean sigma r
    let age := ratRound s
    if amin ≤ age ∧ age ≤ amax then (age, r') else ageLoop t mean sigma amin amax r'

/-- Mirror of surrogates.generate_fake_age on an arbitrary mixture
configuration: misconfiguration fallback to randint, weighted component
choice, unit sigma fallback on non-positive variance, ten-round rejection
sampling with a final clamp. -/
def fakeAgeValue (means vars weights : List Rat) (amin amax : Int) (r : Rng) :
    Int × Rng :=
  if means = [] ∨ vars = [] ∨ weights = [] then
    -- Fallback if misconfigured
    randomRandint amin amax r
  else
    let (k, r1) := _choose_weighted_index weights r
    let mean := means.getD k 0
    let var := vars.getD k 0
    let sigma := if 0 < var then Rat.sqrt var else 1
    ageLoop 10 mean sigma amin amax r1

/-- Mirror of surrogates.generate_fake_age at the module's configuration. -/
def generate_fake_age (_m : MatchInfo) (r : Rng) : String × Rng :=
  let (age, r') := fakeAgeValue AGE_GMM_MEANS AGE_GMM_VARS AGE_GMM_WEIGHTS
    AGE_MIN AGE_MAX r
  (toString age, r')

/-- Model of an opaque Faker composite call (phone_number, address, city,
company): one Faker-stream draw rendered behind a tag naming the call. -/
def fakerOpaque (tag : String) (r : Rng) : String × Rng :=
  let (n, r') := fakerNat r
  (tag ++ "-" ++ toString n, r')

/-- Mirror of surrogates.generate_fake_phone. -/
def generate_fake_phone (_m : MatchInfo) (r : Rng) : String × Rng :=
  fakerOpaque "TELEFOONNUMMER" r

/-- Mirror of surrogates.generate_fake_address (the newline-to-comma
normalization is the identity on the modelled single-line draw). -/
def generate_fake_address (_m : MatchInfo) (r : Rng) : String × Rng :=
  fakerOpaque "ADRES" r

/-- Mirror of surrogates.generate_fake_location. -/
def generate_fake_location (_m : MatchInfo) (r : Rng) : String × Rng :=
  fakerOpaque "PLAATS" r

/-- Model of one Faker bothify digit. -/
def fakerDigit (r : Rng) : Nat × Rng :=
  let (n, r') := fakerNat r
  (n % 10, r')

/-- Model of k Faker bothify digits, in draw order. -/
def fakerDigits : Nat → Rng → List Nat × Rng
  | 0, r => ([], r)
  | k + 1, r =>
    let (d, r1) := fakerDigit r
    let (rest, r2) := fakerDigits k r1
    (d :: rest, r2)

/-- Render bothify digits. -/
def digitsString (ds : List Nat) : String :=
  (ds.map (fun d => Char.ofNat (48 + d % 10))).asString

/-- Mirror of surrogates.generate_fake_patient_id: bothify "PAT-######". -/
def generate_fake_patient_id (_m : MatchInfo) (r : Rng) : String × Rng :=
  let (ds, r') := fakerDigits 6 r
  ("PAT-" ++ digitsString ds, r')

/-- Mirror of surrogates.generate_fake_z_number: bothify "Z-#######". -/
def generate_fake_z_number (_m : MatchInfo) (r : Rng) : String × Rng :=
  let (ds, r') := fakerDigits 7 r
  ("Z-" ++ digitsString ds, r')

/-- Mirror of surrogates.generate_fake_document_id: bothify "DOC-######". -/
def generate_fake_document_id (_m : MatchInfo) (r : Rng) : String × Rng :=
  let (ds, r') := fakerDigits 6 r
  ("DOC-" ++ digitsString ds, r')

/-- Model of _fake.random_int(min, max) (inclusive) from one Faker draw. -/
def fakerRandomInt (a b : Nat) (r : Rng) : Nat × Rng :=
  let (n, r') := fakerNat r
  (a + n % (b - a + 1), r')

/-- Rendering of an optional string the way a Python f-string renders the
value bound to it: the None object prints as "None". -/
def pyStrOpt : Option String → String
  | some s => s
  | none => "None"

/-- Mirror of surrogates.generate_fake_document_sub_id: the subtype is
match.group(1) when match.lastindex is truthy and at least 1, else the
sentinel "X", followed by a random 1000..9999 number.  On the engine's
combined pattern group 1 is the first binding's wrapper group — None when a
later binding fired, the entire matched tag when the sub-id binding is first
— so the value rendered into the surrogate is never the sub-id pattern's own
subtype capture (the intent stated in the generator's docstring). -/
def generate_fake_document_sub_id (m : MatchInfo) (r : Rng) : String × Rng :=
  let hasLast : Bool :=
    match m.lastindex with
    | some k => decide (1 ≤ k)
    | none => false
  let subtype : Option String := if hasLast then m.group1 else some "X"
  let (number_part, r') := fakerRandomInt 1000 9999 r
  ("RAPPORT-" ++ pyStrOpt subtype ++ "-NUMMER-" ++ toString number_part, r')

/-- Mirror of surrogates.generate_fake_phi_number: bothify "PHI-######". -/
def generate_fake_phi_number (_m : MatchInfo) (r : Rng) : String × Rng :=
  let (ds, r') := fakerDigits 6 r
  ("PHI-" ++ digitsString ds, r')

/-- Mirror of surrogates.generate_fake_accreditation_number: "ACC-######". -/
def generate_fake_accreditation_number (_m : MatchInfo) (r : Rng) : String × Rng :=
  let (ds, r') := fakerDigits 6 r
  ("ACC-" ++ digitsString ds, r')

/-- Model of _fake.random_element on a string list: one Faker draw picks. -/
def fakerRandomElement (l : List String) (r : Rng) : String × Rng :=
  let (n, r') := fakerNat r
  (l.getD (n % l.length) "", r')

/-- Mirror of surrogates.generate_fake_hospital_name: company name plus a
hospital-ish suffix drawn by random_element. -/
def generate_fake_hospital_name (_m : MatchInfo) (r : Rng) : String × Rng :=
  let (base, r1) := fakerOpaque "BEDRIJF" r
  let (suf, r2) := fakerRandomElement [" Ziekenhuis", " Medisch Centrum", " Kliniek"] r1
  (base ++ suf, r2)

/-- Model of k Faker bothify letters. -/
def fakerLetters : Nat → Rng → List Char × Rng
  | 0, r => ([], r)
  | k + 1, r =>
    let (n, r1) := fakerNat r
    let (rest, r2) := fakerLetters k r1
    (Char.ofNat (97 + n % 26) :: rest, r2)

/-- Mirror of surrogates.generate_fake_study_name: prefix from a literal word
list, bothify "???-###" uppercased. -/
def generate_fake_study_name (_m : MatchInfo) (r : Rng) : String × Rng :=
  let (pre, r1) := fakerRandomElement ["STUDY", "TRIAL", "PROJECT"] r
  let (ls, r2) := fakerLetters 3 r1
  let (ds, r3) := fakerDigits 3 r2
  let code := (String.mk ls ++ "-" ++ digitsString ds).toUpper
  (pre ++ "-" ++ code, r3)

/-- Mirror of surrogates.DEFAULT_GENERATORS: one generator per PHI type. -/
def DEFAULT_GENERATORS : List (String × (MatchInfo → Rng → String × Rng)) :=
  [(PHIType.PERSON_NAME, generate_fake_person_name),
   (PHIType.PERSON_NAME_ABBREV, generate_fake_person_initials),
   (PHIType.DATE, generate_fake_date),
   (PHIType.TIME, generate_fake_time),
   (PHIType.PHONE_NUMBER, generate_fake_phone),
   (PHIType.ADDRESS, generate_fake_address),
   (PHIType.PATIENT_ID, generate_fake_patient_id),
   (PHIType.Z_NUMBER, generate_fake_z_number),
   (PHIType.LOCATION, generate_fake_location),
   (PHIType.DOCUMENT_ID, generate_fake_document_id),
   (PHIType.DOCUMENT_SUB_ID, generate_fake_document_sub_id),
   (PHIType.PHI_NUMBER, generate_fake_phi_number),
   (PHIType.AGE, generate_fake_age),
   (PHIType.HOSPITAL_NAME, generate_fake_hospital_name),
   (PHIType.ACCREDITATION_NUMBER, generate_fake_accreditation_number),
   (PHIType.STUDY_NAME, generate_fake_study_name)]

/-- Deduplicate preserving first-occurrence order (dict.fromkeys). -/
def dedupFirst (l : List String) : List String :=
  l.foldl (fun acc x => if x ∈ acc then acc else acc ++ [x]) []

/-- Merge step of build_pattern_configs: per default category, the caller's
override replaces the default patterns, both deduplicated order-preserving. -/
def mergedPatterns (custom_patterns_per_type : Option (List (String × List String))) :
    List (String × List String) :=
  DEFAULT_PATTERNS.map (fun pr =>
    match dictGet? custom_patterns_per_type pr.1 with
    | some ps => (pr.1, dedupFirst ps)
    | none => (pr.1, dedupFirst pr.2))

/-- Errors of registry building and engine construction (Python ValueError
and KeyError): every conflicting pair is collected at registry build, the
defensive constructor check stops at the first conflicting config. -/
inductive BuildError where
  | duplicatePatterns (conflicts : List (String × String × String))
  | missingGenerator (phi_type : String)
  | initDuplicate (pattern owner phi_type : String)
deriving DecidableEq, Repr

/-- Inner loop of the duplicate-pattern check of build_pattern_configs over
one category's patterns: a pattern already seen for a different category is
appended to the conflicts, otherwise the seen map records this category. -/
def conflictInner (phi_type : String) :
    List String → List (String × String) → List (String × String × String) →
    List (String × String) × List (String × String × String)
  | [], seen, conflicts => (seen, conflicts)
  | p :: ps, seen, conflicts =>
    match alistGet? seen p with
    | some owner =>
      if owner ≠ phi_type then
        conflictInner phi_type ps seen (conflicts ++ [(p, owner, phi_type)])
      else
        conflictInner phi_type ps (alistSet seen p phi_type) conflicts
    | none => conflictInner phi_type ps (alistSet seen p phi_type) conflicts

/-- Outer loop of the duplicate-pattern check over the merged categories. -/
def conflictOuter :
    List (String × List String) → List (String × String) →
    List (String × String × String) → List (String × String × String)
  | [], _, conflicts => conflicts
  | (t, ps) :: rest, seen, conflicts =>
    let step := conflictInner t ps seen conflicts
    conflictOuter rest step.1 step.2

/-- Third step of build_pattern_configs: per merged category, resolve the
generator (KeyError when absent) and emit one config per pattern carrying the
category's optional cap. -/
def buildConfigs (maxd : Option (List (String × Nat))) :
    List (String × List String) → Except BuildError (List PatternConfig)
  | [] => Except.ok []
  | (t, ps) :: rest =>
    match alistGet? DEFAULT_GENERATORS t with
    | none => Except.error (BuildError.missingGenerator t)
    | some gen =>
      let max_doc := dictGet? maxd t
      match buildConfigs maxd rest with
      | Except.error e => Except.error e
      | Except.ok cs =>
        Except.ok (ps.map (fun p =>
          { phi_type := t, pattern := p, generator := gen,
            max_per_document := max_doc }) ++ cs)

/-- Mirror of core.build_pattern_configs: merge defaults with overrides, fail
on cross-category duplicate pattern strings listing every conflicting pair,
then build the ordered config list. -/
def build_pattern_configs
    (custom_patterns_per_type : Option (List (String × List String)))
    (max_per_document : Option (List (String × Nat))) :
    Except BuildError (List PatternConfig) :=
  let final_patterns_per_type := mergedPatterns custom_patterns_per_type
  let conflicts := conflictOuter final_patterns_per_type [] []
  if conflicts ≠ [] then Except.error (BuildError.duplicatePatterns conflicts)
  else buildConfigs max_per_document final_patterns_per_type

/-- Mirror of HideInPlainSight.__init__: build configs when none are handed
in, re-validate pattern-category uniqueness defensively, and seed the stdlib
random stream when a seed is supplied (the Faker stream is never seeded). -/
def hipsInit (pattern_configs : Option (List PatternConfig)) (seed : Option Nat)
    (custom_patterns_per_type : Option (List (String × List String)))
    (max_per_document : Option (List (String × Nat)))
    (seedFun : Nat → Nat → Nat) (rng : Rng) :
    Except BuildError (HideInPlainSight × Rng) :=
  match (match pattern_configs with
         | some cs => Except.ok cs
         | none => build_pattern_configs custom_patterns_per_type max_per_document) with
  | Except.error e => Except.error e
  | Except.ok configs =>
    match checkOwners configs [] with
    | some c => Except.error (BuildError.initDuplicate c.1 c.2.1 c.2.2)
    | none =>
      let rng' :=
        match seed with
        | some s => randomSeed seedFun s rng
        | none => rng
      Except.ok ({ pattern_configs := configs }, rng')

/-- Prefix test on character lists (needle, haystack). -/
def leadsWith : List Char → List Char → Bool
  | [], _ => true
  | _ :: _, [] => false
  | a :: as, b :: bs => decide (a = b) && leadsWith as bs

/-- Substring test on character lists (needle occurs inside haystack). -/
def occursIn (needle : List Char) : List Char → Bool
  | [] => leadsWith needle []
  | c :: rest => leadsWith needle (c :: rest) || occursIn needle rest

/-- Output position of an input position lying outside every match, given the
match list and the replacement pieces spliced in before it. -/
def outIndexFrom : Nat → List MatchInfo → List (List Char) → Nat → Nat
  | pos, [], _, p => p - pos
  | pos, _ :: _, [], p => p - pos
  | pos, m :: ms, r :: rs, p =>
    if p < m.start then p - pos
    else m.start - pos + r.length + outIndexFrom m.stop ms rs p

/-- First-to-none choice on options (Python's "a if a is not None else b"
reading of the seen-dict fallback used in the conflict characterizations). -/
def optOr (x y : Option String) : Option String :=
  match x with
  | some o => some o
  | none => y

/-- Category of the first merged entry whose pattern list contains p. -/
def firstOwner : List (String × List String) → String → Option String
  | [], _ => none
  | (t, ps) :: rest, p => if p ∈ ps then some t else firstOwner rest p

/-- Some pattern string is bound to two different categories of the merged
per-category pattern map. -/
def hasCrossDup (final : List (String × List String)) : Bool :=
  final.any (fun pr => final.any (fun qr =>
    decide (pr.1 ≠ qr.1) && pr.2.any (fun p => qr.2.any (fun q => decide (p = q)))))

/-- Phi type of the first config carrying the given pattern string. -/
def firstType : List PatternConfig → String → Option String
  | [], _ => none
  | cfg :: rest, p => if cfg.pattern = p then some cfg.phi_type else firstType rest p

/-- Two configs of the list share a pattern string across different types. -/
def hasConfigDup (configs : List PatternConfig) : Bool :=
  configs.any (fun a => configs.any (fun b =>
    decide (a.pattern = b.pattern) && decide (a.phi_type ≠ b.phi_type)))

/-- Specification-shaped form of the conflict collection: per merged entry,
the patterns already owned by a different category, in scan order. -/
def conflictsSpec (seen : List (String × String)) :
    List (String × List String) → List (String × String × String)
  | [] => []
  | (t, ps) :: rest =>
    ps.filterMap (fun p =>
      match alistGet? seen p with
      | some o => if o = t then none else some (p, o, t)
      | none => none) ++
    conflictsSpec (conflictInner t ps seen []).1 rest

/-- Consistency of the merged pattern map with a pre-seeded owner dict: every
pattern of every entry resolves (through the seen dict, then first occurrence)
to that entry's own category — exactly the absence of cross-category
duplicates that the conflict scan detects. -/
def scanConsistent (seen : List (String × String))
    (items : List (String × List String)) : Prop :=
  ∀ pr ∈ items, ∀ p ∈ pr.2,
    optOr (alistGet? seen p) (firstOwner items p) = some pr.1

/-- Consistency of a config list with a pre-seeded owner dict: every config's
pattern resolves to its own phi type. -/
def configsConsistent (owners : List (String × String))
    (configs : List PatternConfig) : Prop :=
  ∀ cfg ∈ configs,
    optOr (alistGet? owners cfg.pattern) (firstType configs cfg.pattern)
      = some cfg.phi_type

/-- Identity-stream random state used by the concrete scenario runs. -/
def rngId : Rng := ⟨fun n => n, 0, fun n => n, 0⟩

/-- Concrete binding for the cap scenario: the default patient-id pattern with
a cap of 2 replacements per document. -/
def patientCfgCap2 : PatternConfig :=
  { phi_type := PHIType.PATIENT_ID, pattern := "<PATIENT(?:_ID|ID|NUMMER)>",
    generator := generate_fake_patient_id, max_per_document := some 2 }

/-- Concrete binding for the determinism scenario: same pattern, no cap. -/
def patientCfgNoCap : PatternConfig :=
  { phi_type := PHIType.PATIENT_ID, pattern := "<PATIENT(?:_ID|ID|NUMMER)>",
    generator := generate_fake_patient_id, max_per_document := none }

/-- Scan of the compiled combined pattern for the patient-id binding. -/
def scanPatient : List Char → List MatchInfo :=
  findIter [(0, patientIdRegex)]

/-- Engine for the cap scenario. -/
def capEngine : HideInPlainSight := ⟨[patientCfgCap2]⟩

/-- Concrete binding for the document-sub-id scenario. -/
def subIdCfg : PatternConfig :=
  { phi_type := PHIType.DOCUMENT_SUB_ID,
    pattern := "<RAPPORT[_-]ID\\.(T|R|C|DPA|RPA)[_-]NUMMER>",
    generator := generate_fake_document_sub_id, max_per_document := none }

/-- Scan of the compiled combined pattern for the document-sub-id binding. -/
def scanRapport : List Char → List MatchInfo :=
  findIter [(0, rapportSubIdRegex)]

/-- Engine for the document-sub-id scenario. -/
def subIdEngine : HideInPlainSight := ⟨[subIdCfg]⟩

/-- Engine with the sub-id binding registered after another binding, as in
the default registry order. -/
def twoBindingEngine : HideInPlainSight := ⟨[patientCfgNoCap, subIdCfg]⟩

/-- Scan of the compiled combined pattern of the two-binding engine. -/
def scanBoth : List Char → List MatchInfo :=
  findIter [(0, patientIdRegex), (1, rapportSubIdRegex)]

/-- Concrete seeding function for the determinism scenario (stands in for the
Mersenne-Twister stream derivation from a seed). -/
def seedFunLin : Nat → Nat → Nat := fun s n => s + n

/-- Engine for the determinism scenario. -/
def seededEngine : HideInPlainSight := ⟨[patientCfgNoCap]⟩

/-- Random state right after construction with seed 42 (the stdlib stream is
re-seeded, the Faker stream keeps its prior state). -/
def rngSeeded42 : Rng := randomSeed seedFunLin 42 rngId

/-- A second pre-construction random state, differing from rngId only in the
stdlib stream component. -/
def rngAlt : Rng := ⟨fun n => n + 5, 7, fun n => n, 0⟩

/-- Override assigning the same literal pattern to the date and time
categories (the configuration-error scenario). -/
def dupOverride : List (String × List String) :=
  [(PHIType.DATE, ["<DATE>"]), (PHIType.TIME, ["<DATE>"])]

/-- Hand-assembled bindings sharing one pattern across two categories. -/
def dupConfigs : List PatternConfig :=
  [{ phi_type := PHIType.DATE, pattern := "<SHARED>",
     generator := generate_fake_date, max_per_document := none },
   { phi_type := PHIType.TIME, pattern := "<SHARED>",
     generator := generate_fake_time, max_per_document := none }]

theorem alistGet?_alistSet {α : Type} (l : List (String × α)) (k t : String) (v : α) :
    alistGet? (alistSet l k v) t = if k = t then some v else alistGet? l t := by
  induction l with
  | nil => simp [alistSet, alistGet?]
  | cons hd tl ih =>
    obtain ⟨k0, v0⟩ := hd
    by_cases h1 : k0 = k
    · subst h1
      by_cases h2 : k0 = t <;> simp [alistSet, alistGet?, h2]
    · by_cases h2 : k0 = t
      · subst h2
        have hk : ¬ k = k0 := fun h => h1 h.symm
        simp [alistSet, alistGet?, h1, hk]
      · simp [alistSet, alistGet?, h1, h2, ih]

theorem countsGet_countsSet (c : Counts) (k t : String) (v : Nat) :
    countsGet (countsSet c k v) t = if k = t then v else countsGet c t := by
  simp only [countsGet, countsSet, alistGet?_alistSet]
  split <;> simp

theorem slice_append (text : List Char) {a b c : Nat} (hab : a ≤ b) (hbc : b ≤ c) :
    slice text a b ++ slice text b c = slice text a c := by
  unfold slice
  have h1 : text.drop b = (text.drop a).drop (b - a) := by
    rw [List.drop_drop]; congr 1; omega
  rw [h1, ← List.take_add]
  congr 1; omega

theorem length_slice (text : List Char) {a b : Nat} (hab : a ≤ b)
    (hb : b ≤ text.length) : (slice text a b).length = b - a := by
  simp [slice]; omega

theorem getElem?_slice (text : List Char) {a b i : Nat} (h : i < b - a) :
    (slice text a b)[i]? = text[a + i]? := by
  simp [slice, List.getElem?_take_of_lt h, List.getElem?_drop]

/-- Claim C8: an engine constructed with zero pattern bindings has no combined
pattern, so run returns the input text unchanged, an empty mapping when one is
requested (none otherwise), and an untouched random state. -/
theorem C8_zero_bindings (e : HideInPlainSight) (scan : List Char → List MatchInfo)
    (text : String) (keep_mapping : Bool) (rng : Rng)
    (h : e.pattern_configs.isEmpty = true) :
    (e.run scan text keep_mapping rng).1.text = text ∧
    (e.run scan text keep_mapping rng).1.mapping
      = (if keep_mapping then some [] else none) ∧
    (e.run scan text keep_mapping rng).2 = rng := by
  simp [HideInPlainSight.run, h]

theorem C8_zero_bindings_witness :
    (HideInPlainSight.mk []).pattern_configs.isEmpty = true ∧
    ((HideInPlainSight.mk []).run scanPatient "Patient <PERSOON>" true rngId).1.text
      = "Patient <PERSOON>" :=
  ⟨by decide,
   (C8_zero_bindings ⟨[]⟩ scanPatient "Patient <PERSOON>" true rngId (by decide)).1⟩

theorem ageLoop_mem (tries : Nat) (mean sigma : Rat) {amin amax : Int}
    (h : amin ≤ amax) (r : Rng) :
    amin ≤ (ageLoop tries mean sigma amin amax r).1 ∧
    (ageLoop tries mean sigma amin amax r).1 ≤ amax := by
  induction tries generalizing r with
  | zero =>
    refine ⟨le_max_left _ _, max_le h (min_le_left _ _)⟩
  | succ t ih =>
    have hrw : ageLoop (t + 1) mean sigma amin amax r =
        (if amin ≤ ratRound (randomGauss mean sigma r).1 ∧
            ratRound (randomGauss mean sigma r).1 ≤ amax then
          (ratRound (randomGauss mean sigma r).1, (randomGauss mean sigma r).2)
        else ageLoop t mean sigma amin amax (randomGauss mean sigma r).2) := rfl
    rw [hrw]
    split
    · next hc => exact hc
    · exact ih _

/-- Claim C6: for any mixture configuration whose component lists cover the
weights (including degenerate all-zero-weight ones), the age value is an
integer inside the inclusive bound: weighted component choice with uniform
fallback, unit sigma on non-positive variance, ten rejection rounds, final
clamp, and the misconfiguration fallback all stay within [amin, amax]. -/
theorem C6_age_within_bound (means vars weights : List Rat) (amin amax : Int)
    (r : Rng) (hb : amin ≤ amax)
    (hm : weights.length ≤ means.length) (hv : weights.length ≤ vars.length) :
    amin ≤ (fakeAgeValue means vars weights amin amax r).1 ∧
    (fakeAgeValue means vars weights amin amax r).1 ≤ amax := by
  unfold fakeAgeValue
  split
  · unfold randomRandint
    have hpos : (0 : Int) < amax - amin + 1 := by omega
    have h1 : 0 ≤ ((stdlibNat r).1 : Int) % (amax - amin + 1) :=
      Int.emod_nonneg _ (by omega)
    have h2 : ((stdlibNat r).1 : Int) % (amax - amin + 1) < amax - amin + 1 :=
      Int.emod_lt_of_pos _ hpos
    constructor <;> simp <;> omega
  · exact ageLoop_mem 10 _ _ hb _

theorem C6_age_within_bound_witness :
    (AGE_MIN ≤ AGE_MAX ∧ AGE_GMM_WEIGHTS.length ≤ AGE_GMM_MEANS.length ∧
     AGE_GMM_WEIGHTS.length ≤ AGE_GMM_VARS.length) ∧
    (AGE_MIN ≤ (fakeAgeValue AGE_GMM_MEANS AGE_GMM_VARS AGE_GMM_WEIGHTS
        AGE_MIN AGE_MAX rngId).1 ∧
     (fakeAgeValue AGE_GMM_MEANS AGE_GMM_VARS AGE_GMM_WEIGHTS
        AGE_MIN AGE_MAX rngId).1 ≤ AGE_MAX) :=
  ⟨⟨by decide, by decide, by decide⟩,
   C6_age_within_bound AGE_GMM_MEANS AGE_GMM_VARS AGE_GMM_WEIGHTS
     AGE_MIN AGE_MAX rngId (by decide) (by decide) (by decide)⟩

theorem leadsWith_append (a b : List Char) : leadsWith a (a ++ b) = true := by
  induction a with
  | nil => simp [leadsWith]
  | cons c cs ih => simp [leadsWith, ih]

theorem occursIn_of_leadsWith {needle hay : List Char}
    (h : leadsWith needle hay = true) : occursIn needle hay = true := by
  cases hay with
  | nil => simpa [occursIn] using h
  | cons c rest => simp [occursIn, h]

theorem occursIn_append_middle (x needle y : List Char) :
    occursIn needle (x ++ (needle ++ y)) = true := by
  induction x with
  | nil => exact occursIn_of_leadsWith (leadsWith_append needle y)
  | cons c cs ih => simp [occursIn, ih]

/-- Claim C5 (code bug): the combined alternation wraps every binding in a
named group, and groups are numbered by opening parenthesis, so
match.group(1) read by generate_fake_document_sub_id is the first binding's
wrapper group — never the sub-id pattern's own subtype capture.  Evaluating
the run on the failing input <RAPPORT_ID.T_NUMMER>: with the sub-id binding
registered after another binding (as in the default registry order) the
surrogate renders the None of a non-participating group, with it registered
first the surrogate embeds the entire matched tag, and in neither case does
the output contain the RAPPORT-T-NUMMER- substring the claim requires. -/
theorem C5_sub_id_subtype_lost :
    (twoBindingEngine.run scanBoth "<RAPPORT_ID.T_NUMMER>" true rngId).1.text
      = "RAPPORT-None-NUMMER-1000" ∧
    (subIdEngine.run scanRapport "<RAPPORT_ID.T_NUMMER>" true rngId).1.text
      = "RAPPORT-<RAPPORT_ID.T_NUMMER>-NUMMER-1000" ∧
    occursIn "RAPPORT-T-NUMMER-".toList
      (twoBindingEngine.run scanBoth "<RAPPORT_ID.T_NUMMER>" true
        rngId).1.text.toList = false ∧
    occursIn "RAPPORT-T-NUMMER-".toList
      (subIdEngine.run scanRapport "<RAPPORT_ID.T_NUMMER>" true
        rngId).1.text.toList = false :=
  ⟨by decide, by decide, by decide, by decide⟩

theorem subPieces_length (configs : List PatternConfig) (keep : Bool)
    (text : List Char) (ms : List MatchInfo) :
    ∀ counts rng, (subPieces configs keep text ms counts rng).length = ms.length := by
  induction ms with
  | nil => intro counts rng; rfl
  | cons m ms ih => intro counts rng; simp [subPieces, ih]

theorem subRun_out_eq_joinPieces (configs : List PatternConfig) (keep : Bool)
    (text : List Char) (ms : List MatchInfo) :
    ∀ pos counts rng,
      (subRun configs keep text ms pos counts rng).out =
        joinPieces text pos ms (subPieces configs keep text ms counts rng) := by
  induction ms with
  | nil => intro pos counts rng; rfl
  | cons m ms ih =>
    intro pos counts rng
    simp [subRun, subPieces, joinPieces, ih]

theorem joinPieces_frame (text : List Char) (nconf : Nat) (ms : List MatchInfo) :
    ∀ (rs : List (List Char)) (pos p : Nat),
      wfFrom pos text.length nconf ms = true →
      rs.length = ms.length →
      pos ≤ p → p < text.length →
      (∀ m ∈ ms, p < m.start ∨ m.stop ≤ p) →
      (joinPieces text pos ms rs)[outIndexFrom pos ms rs p]? = text[p]? := by
  induction ms with
  | nil =>
    intro rs pos p _ _ hpos _ _
    show (text.drop pos)[p - pos]? = text[p]?
    rw [List.getElem?_drop]
    congr 1
    omega
  | cons m ms ih =>
    intro rs pos p hwf hlen hpos hp hout
    cases rs with
    | nil => simp at hlen
    | cons r rs =>
      simp only [wfFrom, Bool.and_eq_true, decide_eq_true_eq] at hwf
      obtain ⟨⟨⟨⟨h1, h2⟩, h3⟩, _⟩, hwf'⟩ := hwf
      have hstartlen : m.start ≤ text.length := le_trans h2 h3
      have hslen : (slice text pos m.start).length = m.start - pos :=
        length_slice text h1 hstartlen
      rcases hout m (by simp) with hlt | hge
      · have hidx : outIndexFrom pos (m :: ms) (r :: rs) p = p - pos := by
          simp [outIndexFrom, hlt]
        rw [hidx]
        show (slice text pos m.start ++ r ++ joinPieces text m.stop ms rs)[p - pos]?
          = text[p]?
        have hlt1 : p - pos < (slice text pos m.start).length := by
          rw [hslen]; omega
        have hlt2 : p - pos < (slice text pos m.start ++ r).length := by
          simp only [List.length_append]; omega
        rw [List.getElem?_append_left hlt2, List.getElem?_append_left hlt1,
          getElem?_slice text (by omega)]
        congr 1
        omega
      · have hnlt : ¬ p < m.start := by omega
        have hidx : outIndexFrom pos (m :: ms) (r :: rs) p
            = m.start - pos + r.length + outIndexFrom m.stop ms rs p := by
          simp [outIndexFrom, hnlt]
        rw [hidx]
        show (slice text pos m.start ++ r ++ joinPieces text m.stop ms rs)[
          m.start - pos + r.length + outIndexFrom m.stop ms rs p]? = text[p]?
        have hge1 : (slice text pos m.start ++ r).length
            ≤ m.start - pos + r.length + outIndexFrom m.stop ms rs p := by
          simp only [List.length_append]; omega
        rw [List.getElem?_append_right hge1]
        have hsub : m.start - pos + r.length + outIndexFrom m.stop ms rs p
            - (slice text pos m.start ++ r).length = outIndexFrom m.stop ms rs p := by
          simp only [List.length_append]; omega
        rw [hsub]
        exact ih rs m.stop p hwf' (by simpa using hlen) hge hp
          (fun m' hm' => hout m' (by simp [hm']))

/-- Claim C2: for every input, configuration and well-formed match list, the
regions of the output text outside every match are byte-identical to the
corresponding regions of the input: each uncovered input position reappears
unchanged at its computed output position. -/
theorem C2_frame_outside_matches (configs : List PatternConfig) (keep : Bool)
    (text : List Char) (ms : List MatchInfo) (counts : Counts) (rng : Rng)
    (p : Nat)
    (hwf : wfFrom 0 text.length configs.length ms = true)
    (hp : p < text.length)
    (hout : ∀ m ∈ ms, p < m.start ∨ m.stop ≤ p) :
    (subRun configs keep text ms 0 counts rng).out[
        outIndexFrom 0 ms (subPieces configs keep text ms counts rng) p]?
      = text[p]? := by
  rw [subRun_out_eq_joinPieces]
  exact joinPieces_frame text configs.length ms _ 0 p hwf
    (subPieces_length configs keep text ms counts rng) (Nat.zero_le p) hp hout

theorem C2_frame_outside_matches_witness :
    wfFrom 0 "x<PATIENT_ID>y".toList.length [patientCfgCap2].length
        (scanPatient "x<PATIENT_ID>y".toList) = true ∧
    (∀ m ∈ scanPatient "x<PATIENT_ID>y".toList, 0 < m.start ∨ m.stop ≤ 0) ∧
    (subRun [patientCfgCap2] true "x<PATIENT_ID>y".toList
        (scanPatient "x<PATIENT_ID>y".toList) 0 [] rngId).out[
      outIndexFrom 0 (scanPatient "x<PATIENT_ID>y".toList)
        (subPieces [patientCfgCap2] true "x<PATIENT_ID>y".toList
          (scanPatient "x<PATIENT_ID>y".toList) [] rngId) 0]?
      = ("x<PATIENT_ID>y".toList)[0]? :=
  ⟨by decide, by decide,
   C2_frame_outside_matches [patientCfgCap2] true _ _ [] rngId 0
     (by decide) (by decide) (by decide)⟩

theorem SubResult.ext_fields {a b : SubResult} (h1 : a.out = b.out)
    (h2 : a.mapping = b.mapping) (h3 : a.counts = b.counts)
    (h4 : a.rng = b.rng) : a = b := by
  cases a; cases b; simp_all

theorem wfFrom_mono {len nconf : Nat} {ms : List MatchInfo} {q q' : Nat}
    (h : q ≤ q') (hwf : wfFrom q' len nconf ms = true) :
    wfFrom q len nconf ms = true := by
  cases ms with
  | nil => rfl
  | cons m ms =>
    simp only [wfFrom, Bool.and_eq_true, decide_eq_true_eq] at hwf ⊢
    obtain ⟨⟨⟨⟨h1, h2⟩, h3⟩, h4⟩, hwf'⟩ := hwf
    exact ⟨⟨⟨⟨by omega, h2⟩, h3⟩, h4⟩, hwf'⟩

theorem wfFrom_filter {len nconf : Nat} (P : MatchInfo → Bool) :
    ∀ {q : Nat} {ms : List MatchInfo}, wfFrom q len nconf ms = true →
      wfFrom q len nconf (ms.filter P) = true := by
  intro q ms
  induction ms generalizing q with
  | nil => intro h; exact h
  | cons m ms ih =>
    intro hwf
    simp only [wfFrom, Bool.and_eq_true, decide_eq_true_eq] at hwf
    obtain ⟨⟨⟨⟨h1, h2⟩, h3⟩, h4⟩, hwf'⟩ := hwf
    by_cases hP : P m
    · simp only [List.filter_cons, hP, if_true, wfFrom, Bool.and_eq_true,
        decide_eq_true_eq]
      exact ⟨⟨⟨⟨h1, h2⟩, h3⟩, h4⟩, ih hwf'⟩
    · simp only [List.filter_cons, hP, if_false, Bool.false_eq_true]
      exact wfFrom_mono (le_trans h1 h2) (ih hwf')

theorem replStep_eq (configs : List PatternConfig) (keep : Bool)
    (text : List Char) (m : MatchInfo) (counts : Counts) (rng : Rng) :
    replStep configs keep text m counts rng =
      (if (match (configs.getD m.idx dummyConfig).max_per_document with
           | some cap =>
             decide (cap ≤ countsGet counts (configs.getD m.idx dummyConfig).phi_type)
           | none => false) = true
       then (slice text m.start m.stop, counts, [], rng)
       else (((configs.getD m.idx dummyConfig).generator m rng).1.toList,
             countsSet counts (configs.getD m.idx dummyConfig).phi_type
               (countsGet counts (configs.getD m.idx dummyConfig).phi_type + 1),
             (if keep then
                [{ phi_type := (configs.getD m.idx dummyConfig).phi_type,
                   pattern := (configs.getD m.idx dummyConfig).pattern,
                   original := (slice text m.start m.stop).asString,
                   surrogate := ((configs.getD m.idx dummyConfig).generator m rng).1,
                   start := m.start, stop := m.stop }]
              else []),
             ((configs.getD m.idx dummyConfig).generator m rng).2)) := rfl

theorem subRun_cons (configs : List PatternConfig) (keep : Bool)
    (text : List Char) (m : MatchInfo) (ms : List MatchInfo) (pos : Nat)
    (counts : Counts) (rng : Rng) :
    subRun configs keep text (m :: ms) pos counts rng =
      { out := slice text pos m.start ++ (replStep configs keep text m counts rng).1
          ++ (subRun configs keep text ms m.stop
                (replStep configs keep text m counts rng).2.1
                (replStep configs keep text m counts rng).2.2.2).out,
        mapping := (replStep configs keep text m counts rng).2.2.1
          ++ (subRun configs keep text ms m.stop
                (replStep configs keep text m counts rng).2.1
                (replStep configs keep text m counts rng).2.2.2).mapping,
        counts := (subRun configs keep text ms m.stop
              (replStep configs keep text m counts rng).2.1
              (replStep configs keep text m counts rng).2.2.2).counts,
        rng := (subRun configs keep text ms m.stop
              (replStep configs keep text m counts rng).2.1
              (replStep configs keep text m counts rng).2.2.2).rng } := rfl

theorem subRun_shift (configs : List PatternConfig) (keep : Bool)
    (text : List Char) {len nconf : Nat} (ms : List MatchInfo)
    (pos q : Nat) (counts : Counts) (rng : Rng)
    (hpq : pos ≤ q) (hwf : wfFrom q len nconf ms = true) :
    subRun configs keep text ms pos counts rng =
      { out := slice text pos q ++ (subRun configs keep text ms q counts rng).out,
        mapping := (subRun configs keep text ms q counts rng).mapping,
        counts := (subRun configs keep text ms q counts rng).counts,
        rng := (subRun configs keep text ms q counts rng).rng } := by
  cases ms with
  | nil =>
    apply SubResult.ext_fields
    · show text.drop pos = slice text pos q ++ text.drop q
      have hd : text.drop q = (text.drop pos).drop (q - pos) := by
        rw [List.drop_drop]; congr 1; omega
      rw [hd]
      exact (List.take_append_drop (q - pos) (text.drop pos)).symm
    · rfl
    · rfl
    · rfl
  | cons m ms =>
    simp only [wfFrom, Bool.and_eq_true, decide_eq_true_eq] at hwf
    obtain ⟨⟨⟨⟨h1, h2⟩, h3⟩, h4⟩, hwf'⟩ := hwf
    have key : slice text pos q ++ slice text q m.start = slice text pos m.start :=
      slice_append text hpq h1
    rw [subRun_cons, subRun_cons]
    apply SubResult.ext_fields
    · simp only []
      rw [← key]
      simp [List.append_assoc]
    · rfl
    · rfl
    · rfl

theorem subRun_counts_other (configs : List PatternConfig) (keep : Bool)
    (text : List Char) (t : String) :
    ∀ (ms : List MatchInfo) (pos : Nat) (counts : Counts) (rng : Rng),
      (∀ m ∈ ms, (configs.getD m.idx dummyConfig).phi_type ≠ t) →
      countsGet (subRun configs keep text ms pos counts rng).counts t
        = countsGet counts t := by
  intro ms
  induction ms with
  | nil => intro pos counts rng _; rfl
  | cons m ms ih =>
    intro pos counts rng hoth
    have hne : (configs.getD m.idx dummyConfig).phi_type ≠ t := hoth m (by simp)
    rw [subRun_cons]
    simp only []
    rw [ih m.stop _ _ (fun m' hm' => hoth m' (by simp [hm']))]
    rw [replStep_eq]
    split
    · rfl
    · simp only []
      rw [countsGet_countsSet, if_neg hne]

theorem subRun_capped_filter (configs : List PatternConfig) (keep : Bool)
    (text : List Char) (t : String) (c : Nat)
    (hcap : ∀ cfg ∈ configs, cfg.phi_type = t → cfg.max_per_document = some c) :
    ∀ (ms : List MatchInfo) (pos : Nat) (counts : Counts) (rng : Rng),
      wfFrom pos text.length configs.length ms = true →
      c ≤ countsGet counts t →
      subRun configs keep text ms pos counts rng =
        subRun configs keep text
          (ms.filter (fun m => decide ((configs.getD m.idx dummyConfig).phi_type ≠ t)))
          pos counts rng := by
  intro ms
  induction ms with
  | nil => intro pos counts rng _ _; rfl
  | cons m ms ih =>
    intro pos counts rng hwf hc
    simp only [wfFrom, Bool.and_eq_true, decide_eq_true_eq] at hwf
    obtain ⟨⟨⟨⟨h1, h2⟩, h3⟩, h4⟩, hwf'⟩ := hwf
    by_cases ht : (configs.getD m.idx dummyConfig).phi_type = t
    · have hmem : configs.getD m.idx dummyConfig ∈ configs := by
        rw [List.getD_eq_getElem configs dummyConfig h4]
        exact List.getElem_mem h4
      have hmax : (configs.getD m.idx dummyConfig).max_per_document = some c :=
        hcap _ hmem ht
      have hstep : replStep configs keep text m counts rng
          = (slice text m.start m.stop, counts, [], rng) := by
        rw [replStep_eq, hmax, ht]
        simp [hc]
      have hdec : decide ((configs.getD m.idx dummyConfig).phi_type ≠ t) = false := by
        rw [ht]; simp
      have hdrop : (m :: ms).filter
          (fun m => decide ((configs.getD m.idx dummyConfig).phi_type ≠ t))
          = ms.filter (fun m => decide ((configs.getD m.idx dummyConfig).phi_type ≠ t)) := by
        rw [List.filter_cons]
        simp only [hdec, Bool.false_eq_true, if_false]
      have key : slice text pos m.start ++ slice text m.start m.stop
          = slice text pos m.stop := slice_append text h1 h2
      rw [hdrop, subRun_cons]
      simp only [hstep]
      rw [ih m.stop counts rng hwf' hc]
      rw [subRun_shift configs keep text
        (ms.filter (fun m => decide ((configs.getD m.idx dummyConfig).phi_type ≠ t)))
        pos m.stop counts rng (le_trans h1 h2)
        (wfFrom_filter _ hwf')]
      apply SubResult.ext_fields
      · simp only []
        rw [← key]
      · rfl
      · rfl
      · rfl
    · have hdec : decide ((configs.getD m.idx dummyConfig).phi_type ≠ t) = true :=
        decide_eq_true ht
      have hkeep : (m :: ms).filter
          (fun m => decide ((configs.getD m.idx dummyConfig).phi_type ≠ t))
          = m :: ms.filter
              (fun m => decide ((configs.getD m.idx dummyConfig).phi_type ≠ t)) := by
        rw [List.filter_cons]
        simp only [hdec, if_true]
      rw [hkeep]
      have hc' : c ≤ countsGet (replStep configs keep text m counts rng).2.1 t := by
        rw [replStep_eq]
        split
        · exact hc
        · simp only []
          rw [countsGet_countsSet, if_neg ht]
          exact hc
      rw [subRun_cons, subRun_cons]
      rw [ih m.stop _ _ hwf' hc']

/-- Claim C1: once a category's replacement counter has reached its configured
cap during a run, every subsequent match of that category is left unchanged in
the output (removing those matches from the match list changes nothing) and
the counter is never incremented again; scenario: three occurrences of
<PATIENT_ID> with cap 2 give two generated identifiers, a literal third
occurrence, and exactly two mapping records. -/
theorem C1_cap_is_permanent :
    (∀ (configs : List PatternConfig) (keep : Bool) (text : List Char)
        (t : String) (c : Nat) (ms : List MatchInfo) (pos : Nat)
        (counts : Counts) (rng : Rng),
        (∀ cfg ∈ configs, cfg.phi_type = t → cfg.max_per_document = some c) →
        wfFrom pos text.length configs.length ms = true →
        c ≤ countsGet counts t →
        subRun configs keep text ms pos counts rng =
          subRun configs keep text
            (ms.filter (fun m => decide ((configs.getD m.idx dummyConfig).phi_type ≠ t)))
            pos counts rng ∧
        countsGet (subRun configs keep text ms pos counts rng).counts t
          = countsGet counts t) ∧
    (capEngine.run scanPatient "<PATIENT_ID> en <PATIENT_ID> en <PATIENT_ID>"
        true rngId).1 =
      { text := "PAT-012345 en PAT-678901 en <PATIENT_ID>",
        mapping := some
          [{ phi_type := "patient_id", pattern := "<PATIENT(?:_ID|ID|NUMMER)>",
             original := "<PATIENT_ID>", surrogate := "PAT-012345",
             start := 0, stop := 12 },
           { phi_type := "patient_id", pattern := "<PATIENT(?:_ID|ID|NUMMER)>",
             original := "<PATIENT_ID>", surrogate := "PAT-678901",
             start := 16, stop := 28 }] } := by
  constructor
  · intro configs keep text t c ms pos counts rng hcap hwf hc
    refine ⟨subRun_capped_filter configs keep text t c hcap ms pos counts rng hwf hc, ?_⟩
    rw [subRun_capped_filter configs keep text t c hcap ms pos counts rng hwf hc]
    apply subRun_counts_other
    intro m hm
    simpa using List.of_mem_filter hm
  · decide

theorem C1_cap_is_permanent_witness :
    (∀ cfg ∈ [patientCfgCap2], cfg.phi_type = "patient_id" →
        cfg.max_per_document = some 2) ∧
    wfFrom 0 "<PATIENT_ID>".toList.length [patientCfgCap2].length
        (scanPatient "<PATIENT_ID>".toList) = true ∧
    2 ≤ countsGet [("patient_id", 2)] "patient_id" ∧
    (subRun [patientCfgCap2] true "<PATIENT_ID>".toList
        (scanPatient "<PATIENT_ID>".toList) 0 [("patient_id", 2)] rngId =
      subRun [patientCfgCap2] true "<PATIENT_ID>".toList
        ((scanPatient "<PATIENT_ID>".toList).filter
          (fun m => decide (([patientCfgCap2].getD m.idx dummyConfig).phi_type
            ≠ "patient_id")))
        0 [("patient_id", 2)] rngId ∧
     countsGet (subRun [patientCfgCap2] true "<PATIENT_ID>".toList
        (scanPatient "<PATIENT_ID>".toList) 0 [("patient_id", 2)] rngId).counts
        "patient_id" = countsGet [("patient_id", 2)] "patient_id") :=
  ⟨by decide, by decide, by decide,
   C1_cap_is_permanent.1 [patientCfgCap2] true "<PATIENT_ID>".toList
     "patient_id" 2 (scanPatient "<PATIENT_ID>".toList) 0
     [("patient_id", 2)] rngId (by decide) (by decide) (by decide)⟩

theorem getD_mem_of_uncapped (configs : List PatternConfig) (m : MatchInfo)
    (counts : Counts)
    (h : ¬ (match (configs.getD m.idx dummyConfig).max_per_document with
            | some cap =>
              decide (cap ≤ countsGet counts (configs.getD m.idx dummyConfig).phi_type)
            | none => false) = true) :
    configs.getD m.idx dummyConfig ∈ configs := by
  by_cases hidx : m.idx < configs.length
  · rw [List.getD_eq_getElem configs dummyConfig hidx]
    exact List.getElem_mem hidx
  · exfalso
    apply h
    rw [List.getD_eq_default configs dummyConfig (by omega)]
    simp [dummyConfig]

theorem countP_phi_cons (rec : MappingRecord) (l : List MappingRecord) (t : String) :
    (rec :: l).countP (fun r => decide (r.phi_type = t))
      = l.countP (fun r => decide (r.phi_type = t))
        + (if rec.phi_type = t then 1 else 0) := by
  rw [List.countP_cons]
  simp only [decide_eq_true_eq]

theorem subRun_mapping_counts (configs : List PatternConfig) (text : List Char)
    (t : String) (c : Nat)
    (hcap : ∀ cfg ∈ configs, cfg.phi_type = t → cfg.max_per_document = some c) :
    ∀ (ms : List MatchInfo) (pos : Nat) (counts : Counts) (rng : Rng),
      countsGet counts t ≤ c →
      ((subRun configs true text ms pos counts rng).mapping.length ≤ ms.length ∧
       (subRun configs true text ms pos counts rng).mapping.countP
           (fun rec => decide (rec.phi_type = t)) + countsGet counts t
         = countsGet (subRun configs true text ms pos counts rng).counts t ∧
       countsGet (subRun configs true text ms pos counts rng).counts t ≤ c ∧
       ms.countP (fun m => decide ((configs.getD m.idx dummyConfig).phi_type = t))
           + (subRun configs true text ms pos counts rng).mapping.length
           + countsGet counts t
         ≤ ms.length + countsGet (subRun configs true text ms pos counts rng).counts t) := by
  intro ms
  induction ms with
  | nil =>
    intro pos counts rng hle
    exact ⟨by simp [subRun], by simp [subRun], hle, by simp [subRun]⟩
  | cons m ms ih =>
    intro pos counts rng hle
    rw [subRun_cons]
    simp only []
    rw [replStep_eq]
    set cfg := configs.getD m.idx dummyConfig with hcfgdef
    have hcnt : (m :: ms).countP
        (fun m => decide ((configs.getD m.idx dummyConfig).phi_type = t))
        = ms.countP (fun m => decide ((configs.getD m.idx dummyConfig).phi_type = t))
          + (if cfg.phi_type = t then 1 else 0) := by
      rw [List.countP_cons]
      simp only [decide_eq_true_eq]
    split
    · obtain ⟨iha, ihb, ihc, ihd⟩ := ih m.stop counts rng hle
      simp only [List.nil_append]
      refine ⟨by simpa using Nat.le_succ_of_le iha, ihb, ihc, ?_⟩
      rw [hcnt]
      simp only [List.length_cons]
      split <;> omega
    · next huncap =>
      have hmem : cfg ∈ configs := getD_mem_of_uncapped configs m counts huncap
      by_cases hty : cfg.phi_type = t
      · have hmax : cfg.max_per_document = some c := hcap _ hmem hty
        have hlt : countsGet counts t < c := by
          rw [hmax, hty] at huncap
          simpa using huncap
        have hset' : countsGet (countsSet counts cfg.phi_type
            (countsGet counts cfg.phi_type + 1)) t = countsGet counts t + 1 := by
          rw [countsGet_countsSet, if_pos hty, hty]
        obtain ⟨iha, ihb, ihc, ihd⟩ := ih m.stop
          (countsSet counts cfg.phi_type (countsGet counts cfg.phi_type + 1))
          (cfg.generator m rng).2 (by rw [hset']; omega)
        rw [hset'] at ihb ihd
        simp only [if_true, List.singleton_append, List.length_cons]
        rw [hcnt, if_pos hty, countP_phi_cons]
        simp only []
        rw [if_pos hty]
        refine ⟨by simpa using Nat.succ_le_succ iha, by omega, ihc, by omega⟩
      · have hset' : countsGet (countsSet counts cfg.phi_type
            (countsGet counts cfg.phi_type + 1)) t = countsGet counts t := by
          rw [countsGet_countsSet, if_neg hty]
        obtain ⟨iha, ihb, ihc, ihd⟩ := ih m.stop
          (countsSet counts cfg.phi_type (countsGet counts cfg.phi_type + 1))
          (cfg.generator m rng).2 (by rw [hset']; omega)
        rw [hset'] at ihb ihd
        simp only [if_true, List.singleton_append, List.length_cons]
        rw [hcnt, if_neg hty, countP_phi_cons]
        simp only []
        rw [if_neg hty]
        refine ⟨by simpa using Nat.succ_le_succ iha, by omega, ihc, by omega⟩

/-- Claim C3: with mapping kept, run produces at most one MappingRecord per
raw match, a category with cap c (on all its bindings) accumulates at most c
records, and once more than c matches of that category occur the total record
count is strictly below the match count. -/
theorem C3_record_count_bounds (configs : List PatternConfig) (text : List Char)
    (ms : List MatchInfo) (rng : Rng) (t : String) (c : Nat)
    (hcap : ∀ cfg ∈ configs, cfg.phi_type = t → cfg.max_per_document = some c) :
    (subRun configs true text ms 0 [] rng).mapping.length ≤ ms.length ∧
    (subRun configs true text ms 0 [] rng).mapping.countP
        (fun rec => decide (rec.phi_type = t)) ≤ c ∧
    (c < ms.countP (fun m => decide ((configs.getD m.idx dummyConfig).phi_type = t)) →
      (subRun configs true text ms 0 [] rng).mapping.length < ms.length) := by
  obtain ⟨ha, hb, hcc, hd⟩ :=
    subRun_mapping_counts configs text t c hcap ms 0 [] rng (by simp [countsGet, alistGet?])
  have hzero : countsGet [] t = 0 := rfl
  rw [hzero] at hb hd
  exact ⟨ha, by omega, fun hgt => by omega⟩

theorem C3_record_count_bounds_witness :
    (∀ cfg ∈ [patientCfgCap2], cfg.phi_type = "patient_id" →
        cfg.max_per_document = some 2) ∧
    2 < (scanPatient "<PATIENT_ID> en <PATIENT_ID> en <PATIENT_ID>".toList).countP
        (fun m => decide (([patientCfgCap2].getD m.idx dummyConfig).phi_type
          = "patient_id")) ∧
    (subRun [patientCfgCap2] true "<PATIENT_ID> en <PATIENT_ID> en <PATIENT_ID>".toList
        (scanPatient "<PATIENT_ID> en <PATIENT_ID> en <PATIENT_ID>".toList)
        0 [] rngId).mapping.length
      < (scanPatient "<PATIENT_ID> en <PATIENT_ID> en <PATIENT_ID>".toList).length :=
  ⟨by decide, by decide,
   (C3_record_count_bounds [patientCfgCap2]
     "<PATIENT_ID> en <PATIENT_ID> en <PATIENT_ID>".toList
     (scanPatient "<PATIENT_ID> en <PATIENT_ID> en <PATIENT_ID>".toList)
     rngId "patient_id" 2 (by decide)).2.2 (by decide)⟩

/-- Claim C9: every MappingRecord's start and stop offsets are the span of one
of the run's matches in the original input text (inside its bounds), the
original field is the input slice at that span, and the mapping list is
ordered left to right with non-overlapping spans. -/
theorem C9_mapping_offsets_ordered (configs : List PatternConfig) (keep : Bool)
    (text : List Char) :
    ∀ (ms : List MatchInfo) (pos : Nat) (counts : Counts) (rng : Rng),
      wfFrom pos text.length configs.length ms = true →
      ((∀ rec ∈ (subRun configs keep text ms pos counts rng).mapping,
          ∃ m ∈ ms, rec.start = m.start ∧ rec.stop = m.stop ∧
            rec.stop ≤ text.length ∧
            rec.original = (slice text m.start m.stop).asString) ∧
       (∀ rec ∈ (subRun configs keep text ms pos counts rng).mapping,
          pos ≤ rec.start ∧ rec.start ≤ rec.stop) ∧
       List.Pairwise (fun a b => a.stop ≤ b.start)
         (subRun configs keep text ms pos counts rng).mapping) := by
  intro ms
  induction ms with
  | nil =>
    intro pos counts rng _
    exact ⟨by simp [subRun], by simp [subRun], by simp [subRun]⟩
  | cons m ms ih =>
    intro pos counts rng hwf
    simp only [wfFrom, Bool.and_eq_true, decide_eq_true_eq] at hwf
    obtain ⟨⟨⟨⟨h1, h2⟩, h3⟩, h4⟩, hwf'⟩ := hwf
    obtain ⟨ih1, ih2, ih3⟩ := ih m.stop
      (replStep configs keep text m counts rng).2.1
      (replStep configs keep text m counts rng).2.2.2 hwf'
    rw [subRun_cons]
    simp only []
    have hrecs : ∀ rec ∈ (replStep configs keep text m counts rng).2.2.1,
        rec.start = m.start ∧ rec.stop = m.stop ∧
        rec.original = (slice text m.start m.stop).asString := by
      rw [replStep_eq]
      split
      · intro rec hrec; simp at hrec
      · intro rec hrec
        simp only [] at hrec
        rcases keep with _ | _
        · simp at hrec
        · simp only [if_true, List.mem_singleton] at hrec
          subst hrec
          exact ⟨rfl, ⟨rfl, rfl⟩⟩
    refine ⟨?_, ?_, ?_⟩
    · intro rec hrec
      rcases List.mem_append.1 hrec with hl | hr
      · obtain ⟨e1, e2, e3⟩ := hrecs rec hl
        exact ⟨m, by simp, e1, e2, by omega, e3⟩
      · obtain ⟨m', hm', e⟩ := ih1 rec hr
        exact ⟨m', by simp [hm'], e⟩
    · intro rec hrec
      rcases List.mem_append.1 hrec with hl | hr
      · obtain ⟨e1, e2, _⟩ := hrecs rec hl
        omega
      · obtain ⟨f1, f2⟩ := ih2 rec hr
        omega
    · rw [List.pairwise_append]
      refine ⟨?_, ih3, ?_⟩
      · rw [replStep_eq]
        split
        · simp
        · simp only []
          rcases keep with _ | _ <;> simp
      · intro a ha b hb
        obtain ⟨e1, e2, _⟩ := hrecs a ha
        obtain ⟨f1, _⟩ := ih2 b hb
        omega

theorem C9_mapping_offsets_ordered_witness :
    wfFrom 0 "<PATIENT_ID> en <PATIENT_ID>".toList.length [patientCfgCap2].length
        (scanPatient "<PATIENT_ID> en <PATIENT_ID>".toList) = true ∧
    List.Pairwise (fun a b => a.stop ≤ b.start)
      (subRun [patientCfgCap2] true "<PATIENT_ID> en <PATIENT_ID>".toList
        (scanPatient "<PATIENT_ID> en <PATIENT_ID>".toList) 0 [] rngId).mapping :=
  ⟨by decide,
   (C9_mapping_offsets_ordered [patientCfgCap2] true
     "<PATIENT_ID> en <PATIENT_ID>".toList
     (scanPatient "<PATIENT_ID> en <PATIENT_ID>".toList)
     0 [] rngId (by decide)).2.2⟩

/-- Claim C4 counterexample: with seed 42 fixed at engine construction, two
successive run calls on the identical input produce different output texts:
the generator draws advance the shared random state, and construction seeds
only the stdlib stream (never the Faker stream). -/
theorem C4_repeat_run_differs :
    hipsInit (some [patientCfgNoCap]) (some 42) none none seedFunLin rngId
      = Except.ok (seededEngine, rngSeeded42) ∧
    (seededEngine.run scanPatient "<PATIENT_ID>" true rngSeeded42).1.text
      ≠ (seededEngine.run scanPatient "<PATIENT_ID>" true
          (seededEngine.run scanPatient "<PATIENT_ID>" true rngSeeded42).2).1.text :=
  ⟨rfl, by decide⟩

/-- Claim C4 amended: a run call is a function of the configs, the scan, the
input and the random state at call time; construction with a fixed seed
resets the entire stdlib stream, so engines built with the same seed produce
identical output and mapping on identical input whenever their Faker stream
states also coincide (which a previous run call on the same engine does not
preserve). -/
theorem C4_seeded_run_deterministic (configs : List PatternConfig)
    (scan : List Char → List MatchInfo) (text : String) (keep : Bool)
    (seedFun : Nat → Nat → Nat) (seed : Nat) (r1 r2 : Rng)
    (hf : r1.fakerStream = r2.fakerStream) (hp : r1.fakerPos = r2.fakerPos) :
    HideInPlainSight.run ⟨configs⟩ scan text keep (randomSeed seedFun seed r1)
      = HideInPlainSight.run ⟨configs⟩ scan text keep (randomSeed seedFun seed r2) := by
  have hr : randomSeed seedFun seed r1 = randomSeed seedFun seed r2 := by
    unfold randomSeed
    cases r1; cases r2
    simp_all
  rw [hr]

theorem C4_seeded_run_deterministic_witness :
    (rngId.fakerStream = rngAlt.fakerStream ∧ rngId.fakerPos = rngAlt.fakerPos) ∧
    HideInPlainSight.run ⟨[patientCfgNoCap]⟩ scanPatient "<PATIENT_ID>" true
        (randomSeed seedFunLin 42 rngId)
      = HideInPlainSight.run ⟨[patientCfgNoCap]⟩ scanPatient "<PATIENT_ID>" true
        (randomSeed seedFunLin 42 rngAlt) :=
  ⟨⟨rfl, rfl⟩,
   C4_seeded_run_deterministic [patientCfgNoCap] scanPatient "<PATIENT_ID>" true
     seedFunLin 42 rngId rngAlt rfl rfl⟩

theorem mergedPatterns_keys (cpt : Option (List (String × List String))) :
    ∀ pr ∈ mergedPatterns cpt, ∃ dp ∈ DEFAULT_PATTERNS, pr.1 = dp.1 := by
  intro pr hpr
  unfold mergedPatterns at hpr
  obtain ⟨dp, hdp, heq⟩ := List.mem_map.1 hpr
  refine ⟨dp, hdp, ?_⟩
  rw [← heq]
  cases hd : dictGet? cpt dp.1 <;> simp [hd]

theorem buildConfigs_maxd_irrel (k : String) (n : Nat) (maxl : List (String × Nat)) :
    ∀ final : List (String × List String), (∀ pr ∈ final, pr.1 ≠ k) →
      buildConfigs (some ((k, n) :: maxl)) final = buildConfigs (some maxl) final := by
  intro final
  induction final with
  | nil => intro _; rfl
  | cons pr rest ih =>
    intro h
    obtain ⟨t, ps⟩ := pr
    have hne : ¬ k = t := fun hh => (h (t, ps) (by simp)) hh.symm
    have hdict : dictGet? (some ((k, n) :: maxl)) t = dictGet? (some maxl) t := by
      simp only [dictGet?, alistGet?, if_neg hne]
    simp only [buildConfigs]
    rw [hdict, ih (fun pr hpr => h pr (by simp [hpr]))]

theorem buildConfigs_types (maxd : Option (List (String × Nat))) :
    ∀ (final : List (String × List String)) (cfgs : List PatternConfig),
      buildConfigs maxd final = Except.ok cfgs →
      ∀ cfg ∈ cfgs, ∃ pr ∈ final, cfg.phi_type = pr.1 := by
  intro final
  induction final with
  | nil =>
    intro cfgs hok cfg hcfg
    simp only [buildConfigs] at hok
    cases hok
    simp at hcfg
  | cons pr rest ih =>
    intro cfgs hok cfg hcfg
    obtain ⟨t, ps⟩ := pr
    simp only [buildConfigs] at hok
    cases halist : alistGet? DEFAULT_GENERATORS t with
    | none => rw [halist] at hok; cases hok
    | some gen =>
      rw [halist] at hok
      cases hrec : buildConfigs maxd rest with
      | error e => rw [hrec] at hok; cases hok
      | ok cs =>
        rw [hrec] at hok
        cases hok
        rcases List.mem_append.1 hcfg with hl | hr
        · obtain ⟨p, _, heq⟩ := List.mem_map.1 hl
          refine ⟨(t, ps), by simp, ?_⟩
          rw [← heq]
        · obtain ⟨pr', hpr', heq⟩ := ih cs hrec cfg hr
          exact ⟨pr', by simp [hpr'], heq⟩

/-- Claim C10: build_pattern_configs iterates only over the categories of
DEFAULT_PATTERNS, so an entry whose key is not a default category, whether in
the pattern override dict or in the per-category cap dict, is silently
ignored: the result is unchanged, no error is raised, and every produced
binding's category is a default category. -/
theorem C10_unknown_keys_ignored (custom : List (String × List String))
    (cpt : Option (List (String × List String)))
    (maxd : Option (List (String × Nat))) (maxl : List (String × Nat))
    (k : String) (pats : List String) (n : Nat)
    (hk : ∀ dp ∈ DEFAULT_PATTERNS, dp.1 ≠ k) :
    build_pattern_configs (some ((k, pats) :: custom)) maxd
      = build_pattern_configs (some custom) maxd ∧
    build_pattern_configs cpt (some ((k, n) :: maxl))
      = build_pattern_configs cpt (some maxl) ∧
    (∀ cfgs, build_pattern_configs cpt maxd = Except.ok cfgs →
      ∀ cfg ∈ cfgs, ∃ dp ∈ DEFAULT_PATTERNS, cfg.phi_type = dp.1) := by
  refine ⟨?_, ?_, ?_⟩
  · have hm : mergedPatterns (some ((k, pats) :: custom))
        = mergedPatterns (some custom) := by
      unfold mergedPatterns
      apply List.map_congr_left
      intro pr hpr
      have hne : ¬ k = pr.1 := fun h => hk pr hpr h.symm
      simp only [dictGet?, alistGet?, if_neg hne]
    unfold build_pattern_configs
    rw [hm]
  · unfold build_pattern_configs
    simp only []
    split
    · rfl
    · apply buildConfigs_maxd_irrel
      intro pr hpr
      obtain ⟨dp, hdp, heq⟩ := mergedPatterns_keys cpt pr hpr
      rw [heq]
      exact hk dp hdp
  · intro cfgs hok cfg hcfg
    unfold build_pattern_configs at hok
    simp only [] at hok
    split at hok
    · cases hok
    · obtain ⟨pr, hpr, heq⟩ := buildConfigs_types maxd _ cfgs hok cfg hcfg
      obtain ⟨dp, hdp, heq2⟩ := mergedPatterns_keys cpt pr hpr
      exact ⟨dp, hdp, by rw [heq, heq2]⟩

theorem C10_unknown_keys_ignored_witness :
    (∀ dp ∈ DEFAULT_PATTERNS, dp.1 ≠ "not_a_phi_type") ∧
    build_pattern_configs (some [("not_a_phi_type", ["<X>"])]) none
      = build_pattern_configs (some []) none ∧
    build_pattern_configs none (some [("not_a_phi_type", 3)])
      = build_pattern_configs none (some []) :=
  ⟨by decide,
   (C10_unknown_keys_ignored [] none none [] "not_a_phi_type" ["<X>"] 3
     (by decide)).1,
   (C10_unknown_keys_ignored [] none none [] "not_a_phi_type" ["<X>"] 3
     (by decide)).2.1⟩

theorem optOr_assoc (x y z : Option String) :
    optOr (optOr x y) z = optOr x (optOr y z) := by
  cases x <;> rfl

theorem firstOwner_cons (t : String) (ps : List String)
    (rest : List (String × List String)) (p : String) :
    firstOwner ((t, ps) :: rest) p
      = if p ∈ ps then some t else firstOwner rest p := rfl

theorem firstOwner_isSome {items : List (String × List String)} :
    ∀ {pr}, pr ∈ items → ∀ {p}, p ∈ pr.2 → ∃ o, firstOwner items p = some o := by
  induction items with
  | nil => intro pr h; simp at h
  | cons hd rest ih =>
    intro pr hpr p hp
    obtain ⟨t, ps⟩ := hd
    rw [firstOwner_cons]
    by_cases hmem : p ∈ ps
    · exact ⟨t, by rw [if_pos hmem]⟩
    · rcases List.mem_cons.1 hpr with heq | hrest
      · exfalso; apply hmem; rw [heq] at hp; exact hp
      · rw [if_neg hmem]; exact ih hrest hp

theorem firstOwner_mem {items : List (String × List String)} :
    ∀ {p o}, firstOwner items p = some o → ∃ ps, (o, ps) ∈ items ∧ p ∈ ps := by
  induction items with
  | nil => intro p o h; simp [firstOwner] at h
  | cons hd rest ih =>
    intro p o h
    obtain ⟨t, ps⟩ := hd
    rw [firstOwner_cons] at h
    by_cases hmem : p ∈ ps
    · rw [if_pos hmem] at h
      cases h
      exact ⟨ps, by simp, hmem⟩
    · rw [if_neg hmem] at h
      obtain ⟨ps', hmem', hp'⟩ := ih h
      exact ⟨ps', by simp [hmem'], hp'⟩

theorem firstType_cons (cfg : PatternConfig) (rest : List PatternConfig) (p : String) :
    firstType (cfg :: rest) p
      = if cfg.pattern = p then some cfg.phi_type else firstType rest p := rfl

theorem firstType_isSome {configs : List PatternConfig} :
    ∀ {cfg}, cfg ∈ configs → ∃ o, firstType configs cfg.pattern = some o := by
  induction configs with
  | nil => intro cfg h; simp at h
  | cons hd rest ih =>
    intro cfg hcfg
    rw [firstType_cons]
    by_cases hmem : hd.pattern = cfg.pattern
    · exact ⟨hd.phi_type, by rw [if_pos hmem]⟩
    · rcases List.mem_cons.1 hcfg with heq | hrest
      · exfalso; apply hmem; rw [heq]
      · rw [if_neg hmem]; exact ih hrest

theorem firstType_mem {configs : List PatternConfig} :
    ∀ {p o}, firstType configs p = some o →
      ∃ cfg ∈ configs, cfg.pattern = p ∧ cfg.phi_type = o := by
  induction configs with
  | nil => intro p o h; simp [firstType] at h
  | cons hd rest ih =>
    intro p o h
    rw [firstType_cons] at h
    by_cases hmem : hd.pattern = p
    · rw [if_pos hmem] at h
      cases h
      exact ⟨hd, by simp, hmem, rfl⟩
    · rw [if_neg hmem] at h
      obtain ⟨cfg, hcfg, he⟩ := ih h
      exact ⟨cfg, by simp [hcfg], he⟩

theorem conflictInner_seen_cfl (t : String) :
    ∀ (ps : List String) (seen : List (String × String))
      (cfl cfl' : List (String × String × String)),
      (conflictInner t ps seen cfl).1 = (conflictInner t ps seen cfl').1 := by
  intro ps
  induction ps with
  | nil => intro seen cfl cfl'; rfl
  | cons p0 ps ih =>
    intro seen cfl cfl'
    simp only [conflictInner]
    cases h0 : alistGet? seen p0 with
    | some owner =>
      simp only []
      by_cases how : owner ≠ t
      · rw [if_pos how, if_pos how]; exact ih _ _ _
      · rw [if_neg how, if_neg how]; exact ih _ _ _
    | none => exact ih _ _ _

theorem if_mem_cons (p p0 t : String) (ps : List String) (hpp : p ≠ p0) :
    (if p ∈ p0 :: ps then some t else none) = (if p ∈ ps then some t else none) := by
  by_cases hm : p ∈ ps
  · rw [if_pos hm, if_pos (List.mem_cons_of_mem _ hm)]
  · rw [if_neg hm, if_neg (by simp [List.mem_cons, hpp, hm])]

theorem if_mem_cons_self (p0 t : String) (ps : List String) :
    (if p0 ∈ p0 :: ps then some t else none) = some t := by
  rw [if_pos (List.mem_cons_self p0 ps)]

theorem conflictInner_seen (t : String) :
    ∀ (ps : List String) (seen : List (String × String))
      (cfl : List (String × String × String)) (p : String),
      alistGet? (conflictInner t ps seen cfl).1 p
        = optOr (alistGet? seen p) (if p ∈ ps then some t else none) := by
  intro ps
  induction ps with
  | nil =>
    intro seen cfl p
    cases h : alistGet? seen p <;> simp [conflictInner, optOr, h]
  | cons p0 ps ih =>
    intro seen cfl p
    simp only [conflictInner]
    cases h0 : alistGet? seen p0 with
    | some owner =>
      simp only []
      by_cases how : owner ≠ t
      · rw [if_pos how, ih]
        by_cases hpp : p = p0
        · subst hpp
          rw [h0]
          rfl
        · rw [if_mem_cons p p0 t ps hpp]
      · rw [if_neg how, ih]
        push_neg at how
        rw [alistGet?_alistSet]
        by_cases hpp : p0 = p
        · subst hpp
          rw [if_pos rfl, h0, how]
          rfl
        · rw [if_neg hpp, if_mem_cons p p0 t ps (fun h => hpp h.symm)]
    | none =>
      simp only []
      rw [ih, alistGet?_alistSet]
      by_cases hpp : p0 = p
      · subst hpp
        rw [if_pos rfl, h0, if_mem_cons_self]
        rfl
      · rw [if_neg hpp, if_mem_cons p p0 t ps (fun h => hpp h.symm)]

theorem conflictInner_conflicts (t : String) :
    ∀ (ps : List String) (seen : List (String × String))
      (cfl : List (String × String × String)),
      (conflictInner t ps seen cfl).2
        = cfl ++ ps.filterMap (fun p =>
            match alistGet? seen p with
            | some o => if o = t then none else some (p, o, t)
            | none => none) := by
  intro ps
  induction ps with
  | nil => intro seen cfl; simp [conflictInner]
  | cons p0 ps ih =>
    intro seen cfl
    simp only [conflictInner, List.filterMap_cons]
    cases h0 : alistGet? seen p0 with
    | some owner =>
      simp only []
      by_cases how : owner ≠ t
      · rw [if_pos how, ih, if_neg (fun h => how h)]
        simp [List.append_assoc]
      · push_neg at how
        rw [if_neg (by simpa using how), ih, if_pos how]
        simp only []
        congr 1
        apply List.filterMap_congr
        intro q _
        rw [alistGet?_alistSet]
        by_cases hpq : p0 = q
        · subst hpq
          rw [if_pos rfl, h0, how]
        · rw [if_neg hpq]
    | none =>
      simp only []
      rw [ih]
      congr 1
      apply List.filterMap_congr
      intro q _
      rw [alistGet?_alistSet]
      by_cases hpq : p0 = q
      · subst hpq
        rw [if_pos rfl, h0]
        simp
      · rw [if_neg hpq]

theorem conflictOuter_spec :
    ∀ (items : List (String × List String)) (seen : List (String × String))
      (cfl : List (String × String × String)),
      conflictOuter items seen cfl = cfl ++ conflictsSpec seen items := by
  intro items
  induction items with
  | nil => intro seen cfl; simp [conflictOuter, conflictsSpec]
  | cons hd rest ih =>
    intro seen cfl
    obtain ⟨t, ps⟩ := hd
    simp only [conflictOuter, conflictsSpec]
    rw [ih, conflictInner_conflicts, conflictInner_seen_cfl t ps seen cfl []]
    simp [List.append_assoc]

theorem ownerFull_bridge (t : String) (ps : List String)
    (seen : List (String × String)) (rest : List (String × List String))
    (p : String) :
    optOr (alistGet? (conflictInner t ps seen []).1 p) (firstOwner rest p)
      = optOr (alistGet? seen p) (firstOwner ((t, ps) :: rest) p) := by
  rw [conflictInner_seen, optOr_assoc, firstOwner_cons]
  congr 1
  by_cases hm : p ∈ ps
  · rw [if_pos hm, if_pos hm]; rfl
  · rw [if_neg hm, if_neg hm]; rfl

theorem conflictsSpec_eq_nil_iff :
    ∀ (items : List (String × List String)) (seen : List (String × String)),
      conflictsSpec seen items = [] ↔ scanConsistent seen items := by
  intro items
  induction items with
  | nil =>
    intro seen
    simp [conflictsSpec, scanConsistent]
  | cons hd rest ih =>
    intro seen
    obtain ⟨t, ps⟩ := hd
    simp only [conflictsSpec]
    rw [List.append_eq_nil]
    constructor
    · rintro ⟨h1, h2⟩
      intro pr hpr p hp
      rcases List.mem_cons.1 hpr with heq | hrest
      · subst heq
        have hf := (List.filterMap_eq_nil_iff.1 h1) p hp
        rw [firstOwner_cons, if_pos hp]
        cases hs : alistGet? seen p with
        | none => rfl
        | some o =>
          rw [hs] at hf
          simp only [] at hf
          by_cases ho : o = t
          · subst ho; rfl
          · rw [if_neg ho] at hf; cases hf
      · have hr := (ih _).1 h2 pr hrest p hp
        rw [ownerFull_bridge] at hr
        exact hr
    · intro hcons
      constructor
      · apply List.filterMap_eq_nil_iff.2
        intro p hp
        have hme := hcons (t, ps) (by simp) p hp
        rw [firstOwner_cons, if_pos hp] at hme
        cases hs : alistGet? seen p with
        | none => rfl
        | some o =>
          rw [hs] at hme
          simp only [optOr] at hme
          have ho : o = t := Option.some.inj hme
          simp only []
          rw [if_pos ho]
      · apply (ih _).2
        intro pr hpr p hp
        rw [ownerFull_bridge]
        exact hcons pr (by simp [hpr]) p hp

theorem conflictsSpec_mentions :
    ∀ (items : List (String × List String)) (seen : List (String × String))
      (pr : String × List String), pr ∈ items → ∀ p ∈ pr.2,
      optOr (alistGet? seen p) (firstOwner items p) ≠ some pr.1 →
      ∃ o u, (p, o, u) ∈ conflictsSpec seen items ∧ o ≠ u := by
  intro items
  induction items with
  | nil => intro seen pr h; simp at h
  | cons hd rest ih =>
    intro seen pr hpr p hp hbad
    obtain ⟨t, ps⟩ := hd
    simp only [conflictsSpec]
    rcases List.mem_cons.1 hpr with heq | hrest
    · subst heq
      rw [firstOwner_cons, if_pos hp] at hbad
      cases hs : alistGet? seen p with
      | none => exfalso; apply hbad; rw [hs]; rfl
      | some o =>
        rw [hs] at hbad
        have ho : o ≠ t := by
          intro h
          apply hbad
          simp only [optOr]
          rw [h]
        refine ⟨o, t, List.mem_append_left _ ?_, ho⟩
        apply List.mem_filterMap.2
        refine ⟨p, hp, ?_⟩
        rw [hs]
        simp only []
        rw [if_neg ho]
    · have hbad' : optOr (alistGet? (conflictInner t ps seen []).1 p)
          (firstOwner rest p) ≠ some pr.1 := by
        rw [ownerFull_bridge]
        exact hbad
      obtain ⟨o, u, hm, hne⟩ := ih _ pr hrest p hp hbad'
      exact ⟨o, u, List.mem_append_right _ hm, hne⟩

theorem hasCrossDup_iff (final : List (String × List String)) :
    hasCrossDup final = true ↔ ¬ scanConsistent [] final := by
  unfold hasCrossDup scanConsistent
  simp only [List.any_eq_true, Bool.and_eq_true, decide_eq_true_eq]
  constructor
  · rintro ⟨pr, hpr, qr, hqr, hne, p, hp, q, hq, heq⟩
    intro hcons
    subst heq
    have h1 := hcons pr hpr p hp
    have h2 := hcons qr hqr p hq
    simp only [alistGet?, optOr] at h1 h2
    rw [h1] at h2
    exact hne (Option.some.inj h2)
  · intro hncons
    push_neg at hncons
    obtain ⟨pr, hpr, p, hp, hbad⟩ := hncons
    simp only [alistGet?, optOr] at hbad
    obtain ⟨o, ho⟩ := firstOwner_isSome hpr hp
    obtain ⟨ps', hmem', hp'⟩ := firstOwner_mem ho
    refine ⟨pr, hpr, (o, ps'), hmem', ?_, p, hp, p, hp', rfl⟩
    intro hcontra
    apply hbad
    rw [ho, hcontra]

theorem checkOwners_eq_none_iff :
    ∀ (configs : List PatternConfig) (owners : List (String × String)),
      checkOwners configs owners = none ↔ configsConsistent owners configs := by
  intro configs
  induction configs with
  | nil => intro owners; simp [checkOwners, configsConsistent]
  | cons cfg rest ih =>
    intro owners
    simp only [checkOwners]
    cases h0 : alistGet? owners cfg.pattern with
    | some owner =>
      simp only []
      by_cases how : owner ≠ cfg.phi_type
      · rw [if_pos how]
        constructor
        · intro h; cases h
        · intro hcons
          exfalso
          have hme := hcons cfg (by simp)
          rw [h0] at hme
          simp only [optOr] at hme
          exact how (Option.some.inj hme)
      · push_neg at how
        rw [if_neg (fun hh => hh how), ih]
        constructor
        · intro hcons pr hpr
          rcases List.mem_cons.1 hpr with heq | hrest
          · subst heq
            rw [h0]
            simp only [optOr]
            rw [how]
          · have hme := hcons pr hrest
            rw [alistGet?_alistSet] at hme
            by_cases hq : cfg.pattern = pr.pattern
            · rw [if_pos hq] at hme
              simp only [optOr] at hme
              rw [firstType_cons, if_pos hq, ← hq, h0]
              simp only [optOr]
              rw [how, hme]
            · rw [if_neg hq] at hme
              rw [firstType_cons, if_neg hq]
              exact hme
        · intro hcons pr hpr
          have hme := hcons pr (by simp [hpr])
          rw [alistGet?_alistSet]
          by_cases hq : cfg.pattern = pr.pattern
          · rw [if_pos hq]
            simp only [optOr]
            rw [firstType_cons, if_pos hq, ← hq, h0] at hme
            simp only [optOr] at hme
            rw [← how, hme]
          · rw [if_neg hq]
            rw [firstType_cons, if_neg hq] at hme
            exact hme
    | none =>
      simp only []
      rw [ih]
      constructor
      · intro hcons pr hpr
        rcases List.mem_cons.1 hpr with heq | hrest
        · subst heq
          rw [h0]
          simp only [optOr]
          rw [firstType_cons, if_pos rfl]
        · have hme := hcons pr hrest
          rw [alistGet?_alistSet] at hme
          by_cases hq : cfg.pattern = pr.pattern
          · rw [if_pos hq] at hme
            simp only [optOr] at hme
            rw [firstType_cons, if_pos hq, ← hq, h0]
            simp only [optOr]
            exact hme
          · rw [if_neg hq] at hme
            rw [firstType_cons, if_neg hq]
            exact hme
      · intro hcons pr hpr
        have hme := hcons pr (by simp [hpr])
        rw [alistGet?_alistSet]
        by_cases hq : cfg.pattern = pr.pattern
        · rw [if_pos hq]
          simp only [optOr]
          rw [firstType_cons, if_pos hq, ← hq, h0] at hme
          simp only [optOr] at hme
          exact hme
        · rw [if_neg hq]
          rw [firstType_cons, if_neg hq] at hme
          exact hme

theorem hasConfigDup_iff (configs : List PatternConfig) :
    hasConfigDup configs = true ↔ ¬ configsConsistent [] configs := by
  unfold hasConfigDup configsConsistent
  simp only [List.any_eq_true, Bool.and_eq_true, decide_eq_true_eq]
  constructor
  · rintro ⟨a, ha, b, hb, hpat, hty⟩
    intro hcons
    have h1 := hcons a ha
    have h2 := hcons b hb
    simp only [alistGet?, optOr] at h1 h2
    rw [hpat] at h1
    rw [h1] at h2
    exact hty (Option.some.inj h2)
  · intro hn
    push_neg at hn
    obtain ⟨cfg, hcfg, hbad⟩ := hn
    simp only [alistGet?, optOr] at hbad
    obtain ⟨o, ho⟩ := firstType_isSome hcfg
    obtain ⟨cfg', hcfg', hpat', hty'⟩ := firstType_mem ho
    refine ⟨cfg, hcfg, cfg', hcfg', hpat'.symm, ?_⟩
    intro hcontra
    apply hbad
    rw [ho, ← hty', ← hcontra]

theorem buildConfigs_error_missing (maxd : Option (List (String × Nat))) :
    ∀ (final : List (String × List String)) (e : BuildError),
      buildConfigs maxd final = Except.error e →
      ∃ u, e = BuildError.missingGenerator u := by
  intro final
  induction final with
  | nil => intro e h; cases h
  | cons pr rest ih =>
    intro e h
    obtain ⟨t, ps⟩ := pr
    simp only [buildConfigs] at h
    cases halist : alistGet? DEFAULT_GENERATORS t with
    | none =>
      rw [halist] at h
      cases h
      exact ⟨t, rfl⟩
    | some gen =>
      rw [halist] at h
      cases hrec : buildConfigs maxd rest with
      | error e2 =>
        rw [hrec] at h
        injection h with he
        subst he
        exact ih e2 hrec
      | ok cs => rw [hrec] at h; cases h

/-- Claim C7: after merging defaults and overrides, registry building fails
with the duplicate-patterns configuration error exactly when some pattern
string is bound to two different categories (no partial registry escapes in
that case); the error lists a conflicting-pair entry for every such pattern;
and engine construction from hand-assembled bindings fails its defensive
check under exactly the same condition on the bindings. -/
theorem C7_cross_category_duplicates_fail :
    (∀ (cpt : Option (List (String × List String)))
        (maxd : Option (List (String × Nat))),
      (∃ cs, build_pattern_configs cpt maxd
          = Except.error (BuildError.duplicatePatterns cs))
        ↔ hasCrossDup (mergedPatterns cpt) = true) ∧
    (∀ (cpt : Option (List (String × List String)))
        (maxd : Option (List (String × Nat)))
        (cs : List (String × String × String))
        (pr qr : String × List String) (p : String),
      build_pattern_configs cpt maxd
          = Except.error (BuildError.duplicatePatterns cs) →
      pr ∈ mergedPatterns cpt → qr ∈ mergedPatterns cpt → pr.1 ≠ qr.1 →
      p ∈ pr.2 → p ∈ qr.2 →
      ∃ o u, (p, o, u) ∈ cs ∧ o ≠ u) ∧
    (∀ (configs : List PatternConfig) (seed : Option Nat)
        (seedFun : Nat → Nat → Nat) (rng : Rng),
      (∃ p o u, hipsInit (some configs) seed none none seedFun rng
          = Except.error (BuildError.initDuplicate p o u))
        ↔ hasConfigDup configs = true) := by
  refine ⟨?_, ?_, ?_⟩
  · intro cpt maxd
    unfold build_pattern_configs
    simp only []
    rw [conflictOuter_spec, List.nil_append]
    constructor
    · rintro ⟨cs, hcs⟩
      by_cases hnil : conflictsSpec [] (mergedPatterns cpt) = []
      · exfalso
        rw [if_neg (by simpa using hnil)] at hcs
        obtain ⟨u, hu⟩ := buildConfigs_error_missing maxd _ _ hcs
        cases hu
      · rw [hasCrossDup_iff]
        exact fun hcons => hnil ((conflictsSpec_eq_nil_iff _ _).2 hcons)
    · intro hdup
      have hnil : conflictsSpec [] (mergedPatterns cpt) ≠ [] := fun h =>
        (hasCrossDup_iff _).1 hdup ((conflictsSpec_eq_nil_iff _ _).1 h)
      exact ⟨conflictsSpec [] (mergedPatterns cpt), by rw [if_pos hnil]⟩
  · intro cpt maxd cs pr qr p hbuild hpr hqr hne hp hq
    unfold build_pattern_configs at hbuild
    simp only [] at hbuild
    rw [conflictOuter_spec, List.nil_append] at hbuild
    by_cases hnil : conflictsSpec [] (mergedPatterns cpt) = []
    · exfalso
      rw [if_neg (by simpa using hnil)] at hbuild
      obtain ⟨u, hu⟩ := buildConfigs_error_missing maxd _ _ hbuild
      cases hu
    · rw [if_pos hnil] at hbuild
      have hcseq : cs = conflictsSpec [] (mergedPatterns cpt) := by
        cases hbuild
        rfl
      rw [hcseq]
      obtain ⟨o, ho⟩ := firstOwner_isSome hpr hp
      by_cases hco : o = pr.1
      · apply conflictsSpec_mentions _ [] qr hqr p hq
        simp only [alistGet?, optOr]
        rw [ho, hco]
        exact fun hcontra => hne (Option.some.inj hcontra)
      · apply conflictsSpec_mentions _ [] pr hpr p hp
        simp only [alistGet?, optOr]
        rw [ho]
        exact fun hcontra => hco (Option.some.inj hcontra)
  · intro configs seed seedFun rng
    unfold hipsInit
    simp only []
    constructor
    · rintro ⟨p, o, u, h⟩
      cases hchk : checkOwners configs [] with
      | none =>
        rw [hchk] at h
        cases h
      | some c =>
        apply (hasConfigDup_iff _).2
        intro hcons
        rw [(checkOwners_eq_none_iff _ _).2 hcons] at hchk
        cases hchk
    · intro hdup
      cases hchk : checkOwners configs [] with
      | none =>
        exfalso
        exact (hasConfigDup_iff _).1 hdup ((checkOwners_eq_none_iff _ _).1 hchk)
      | some c =>
        exact ⟨c.1, c.2.1, c.2.2, rfl⟩

theorem C7_cross_category_duplicates_fail_witness :
    hasCrossDup (mergedPatterns (some dupOverride)) = true ∧
    (∃ cs, build_pattern_configs (some dupOverride) none
        = Except.error (BuildError.duplicatePatterns cs)) ∧
    hasConfigDup dupConfigs = true ∧
    (∃ p o u, hipsInit (some dupConfigs) none none none seedFunLin rngId
        = Except.error (BuildError.initDuplicate p o u)) :=
  ⟨by decide,
   (C7_cross_category_duplicates_fail.1 (some dupOverride) none).2 (by decide),
   by decide,
   (C7_cross_category_duplicates_fail.2.2 dupConfigs none seedFunLin rngId).2
     (by decide)⟩

end DutchMedHips
